import Mathlib

/-!
# Request pipeline of `service-app`: trace ids, bearer authorization, handlers

A shallow embedding of `service-app/middlewares/auth_log.go`,
`service-app/handlers/endPointFunctions.go` and
`service-app/models/serviceFunctions.go`, of the token issuing of
`5-prog_SignUp_Login_Logger_API/auth/auth.go`, and of the handlers of the
earlier iterations `3-prog_Signup_API` and `5-prog_SignUp_Login_Logger_API`.

* Go strings are Lean strings; `strings.Split` and `strings.ToLower` work on
  their character lists.
* `context.Context` is the chain of key/value pairs built by
  `context.WithValue`, newest first.
* A handler is a function on the state of the `*gin.Context` it receives.
  A stage returns the state it leaves behind together with the list of the
  actions it performed itself, in program order (calls to the token service,
  to the store, log lines, the call of the next stage).
* What the program takes from outside is a parameter: the database, the JSON
  decoder and the validator, the password hash, the jwt library, the
  readings of the clock and the `float64` arithmetic.
-/

/-! ## Library values -/

/-- Go `error` values, identified by their message. -/
abbrev GoError := String

namespace http

def StatusOK : Nat := 200
def StatusBadRequest : Nat := 400
def StatusUnauthorized : Nat := 401
def StatusInternalServerError : Nat := 500
def StatusBadGateway : Nat := 502

/-- The table of `net/http.StatusText`, on the codes this program uses; like
the library it gives the empty string for a code it does not know. -/
def StatusText : Nat → String
  | 200 => "OK"
  | 400 => "Bad Request"
  | 401 => "Unauthorized"
  | 500 => "Internal Server Error"
  | _ => ""

/-- Request headers as `net/http.Header`: canonical key to its values. -/
abbrev Header := List (String × List String)

/-- The first value stored under the key, the empty string when there is
none (`Header.Get`; the key used by the program is already canonical). -/
def Header.Get (h : Header) (key : String) : String :=
  match h.lookup key with
  | some (v :: _) => v
  | _ => ""

end http

namespace strings

/-- Puts a character in front of the first piece of a split. -/
def consHead (c : Char) : List (List Char) → List (List Char)
  | [] => [[c]]
  | p :: ps => (c :: p) :: ps

/-- The pieces of a character list between the occurrences of `sep`. -/
def splitChars (sep : Char) : List Char → List (List Char)
  | [] => [[]]
  | c :: cs =>
    if c = sep then [] :: splitChars sep cs else consHead c (splitChars sep cs)

/-- Go `strings.Split(s, sep)` for a separator of one character, as in
`strings.Split(authHeader, " ")`: one piece more than there are separators,
so the empty string gives one empty piece. -/
def Split (s : String) (sep : Char) : List String :=
  (splitChars sep s.toList).map String.mk

/-- Go `strings.ToLower`: the letters `A`..`Z` are mapped to `a`..`z`. Go
also lower-cases letters outside ASCII; none of those is mapped to a letter
of the word `bearer`, the only word a result is compared with here. -/
def ToLower (s : String) : String :=
  String.mk (s.toList.map Char.toLower)

end strings

namespace jwt

/-- The fields of `jwt.RegisteredClaims`; dates are Unix seconds, `none` for a
nil `*NumericDate`. -/
structure RegisteredClaims where
  Issuer : String
  Subject : String
  Audience : List String
  ExpiresAt : Option Int
  NotBefore : Option Int
  IssuedAt : Option Int
  ID : String
deriving DecidableEq, Repr

end jwt

namespace context

/-- Context keys are compared as Go interface values: dynamic type and value. -/
structure Key where
  typ : String
  val : String
deriving DecidableEq, Repr

/-- The dynamic values this program stores in, or may find in, a context. -/
inductive Val where
  | str (s : String)
  | claims (c : jwt.RegisteredClaims)
  | other (typ : String)
deriving DecidableEq, Repr

/-- A context: the pairs added by `WithValue`, newest first. -/
abbrev Context := List (Key × Val)

/-- Go `context.WithValue`: a new context, the parent is not changed. -/
def WithValue (parent : Context) (key : Key) (val : Val) : Context :=
  (key, val) :: parent

/-- Go `ctx.Value(key)`: the newest value stored under the key. -/
def Value (ctx : Context) (key : Key) : Option Val :=
  ctx.lookup key

/-- The type assertion `v.(string)`. -/
def assertString : Option Val → Option String
  | some (Val.str s) => some s
  | _ => none

/-- The type assertion `v.(jwt.RegisteredClaims)`. -/
def assertClaims : Option Val → Option jwt.RegisteredClaims
  | some (Val.claims c) => some c
  | _ => none

end context

namespace auth

/-- Modelled from the spec: package `service-app/auth` is not among the
sources. `auth.Key` is the context key under which the authorization stage
attaches the claims; it is a constant of a type declared in package `auth`. -/
def Key : context.Key := ⟨"auth.ctxKey", "1"⟩

/-- Modelled from the spec: the token service of the absent package
`service-app/auth`, with its two operations `GenerateToken` and
`ValidateToken`; each either fails or returns its result. -/
structure Auth where
  GenerateToken : jwt.RegisteredClaims → Except GoError String
  ValidateToken : String → Except GoError jwt.RegisteredClaims

end auth

namespace models

/-- A `float64`, kept as its IEEE-754 bit pattern; the pipeline only passes
such values on. -/
structure Float64 where
  bits : Nat
deriving DecidableEq, Repr

/-- The fields of `models.NewUser` that the program reads. -/
structure NewUser where
  Name : String
  Email : String
  Password : String
deriving DecidableEq, Repr

/-- The fields of `models.User` that the program reads or writes. -/
structure User where
  ID : Nat
  Name : String
  Email : String
  PasswordHash : String
deriving DecidableEq, Repr

/-- The fields of `models.NewInventory` that the program reads. -/
structure NewInventory where
  ItemName : String
  Quantity : Int
  Category : String
  CostPerItem : Float64
deriving DecidableEq, Repr

/-- The fields of `models.Inventory` that the program reads or writes. -/
structure Inventory where
  ItemName : String
  Quantity : Int
  Category : String
  UserId : Nat
  CostPerItem : Float64
deriving DecidableEq, Repr

/-- The `models.Store` interface the handlers are written against; each
operation either fails or returns its result. -/
structure Store where
  CreateUser : context.Context → NewUser → Except GoError User
  Authenticate : context.Context → String → String → Except GoError jwt.RegisteredClaims
  CreatInventory : context.Context → NewInventory → Nat → Except GoError Inventory
  ViewInventory : context.Context → String → Except GoError (List Inventory × Float64)

end models

namespace zerolog

/-- A value of a field of a log line. -/
inductive Field where
  | str (s : String)
  | int (n : Int)
deriving DecidableEq, Repr

/-- One emitted log line: level, the fields in the order they were added,
and the message (`Send()` emits the empty message). An event that is built
but never sent with `Msg` or `Send` emits nothing. -/
structure Line where
  level : String
  fields : List (String × Field)
  msg : String
deriving DecidableEq, Repr

end zerolog

namespace gin

/-- What a handler passes to `c.JSON` or `c.AbortWithStatusJSON`. -/
inductive Body where
  | H (fields : List (String × String))
  | token (Token : String)
  | user (u : models.User)
  | inventory (inv : models.Inventory)
  | inventories (inv : List models.Inventory) (total_cost : models.Float64)
deriving DecidableEq, Repr

/-- The part of `*http.Request` the program uses. -/
structure Request where
  ctx : context.Context
  Header : http.Header
  Method : String
  URLPath : String
  Body : String
deriving DecidableEq, Repr

/-- Go `Request.Context()`. -/
def Request.Context (r : Request) : context.Context := r.ctx

/-- Go `Request.WithContext(ctx)`: a copy of the request with that context. -/
def Request.WithContext (r : Request) (ctx : context.Context) : Request :=
  { r with ctx := ctx }

/-- The response writer of gin: `status` is what `Status()` returns (200 on
a fresh writer), `written` lists the JSON responses rendered so far. -/
structure ResponseWriter where
  status : Nat
  written : List (Nat × Body)
deriving DecidableEq, Repr

/-- Go `c.Writer.Status()`. -/
def ResponseWriter.Status (w : ResponseWriter) : Nat := w.status

/-- Rendering a JSON response: the status code is taken only while nothing
has been written (gin keeps the first status afterwards) and the response is
appended to what was written. -/
def ResponseWriter.writeJSON (w : ResponseWriter) (code : Nat) (obj : Body) : ResponseWriter :=
  { status := if w.written.isEmpty then code else w.status,
    written := w.written ++ [(code, obj)] }

/-- The state of a `*gin.Context`. -/
structure Context where
  Request : Request
  Writer : ResponseWriter
  aborted : Bool
deriving DecidableEq, Repr

/-- Go `c.JSON(code, obj)`. -/
def Context.JSON (c : Context) (code : Nat) (obj : Body) : Context :=
  { c with Writer := c.Writer.writeJSON code obj }

/-- Go `c.AbortWithStatusJSON(code, obj)`: `Abort()` followed by `JSON`. -/
def Context.AbortWithStatusJSON (c : Context) (code : Nat) (obj : Body) : Context :=
  { c with aborted := true, Writer := c.Writer.writeJSON code obj }

/-- A `gin.HandlerFunc`, seen from its caller: the state it leaves behind. -/
abbrev HandlerFunc := Context → Context

end gin

/-- The actions a stage performs itself, in program order. -/
inductive Event where
  | log (line : zerolog.Line)
  | ValidateToken (token : String)
  | GenerateToken (claims : jwt.RegisteredClaims)
  | next (c : gin.Context)
  | decodeBody (body : String)
  | CreateUser (nu : models.NewUser)
  | Authenticate (email password : String)
  | CreatInventory (ni : models.NewInventory) (userId : Nat)
  | ViewInventory (userId : String)
  | AutoMigrate
  | Authentication (email password : String)
  | dbCreate (u : models.User)
deriving DecidableEq, Repr

/-- What running a stage on a request gives: the state of the gin context
when the stage returns and the actions the stage performed. -/
structure Outcome where
  c : gin.Context
  events : List Event
deriving DecidableEq, Repr

namespace Outcome

/-- The arguments of the stage's calls of `ValidateToken`, in order. -/
def validateCalls (o : Outcome) : List String :=
  o.events.filterMap fun e => match e with
    | Event.ValidateToken t => some t
    | _ => none

/-- The contexts with which the stage invoked the next stage, in order. -/
def nextCalls (o : Outcome) : List gin.Context :=
  o.events.filterMap fun e => match e with
    | Event.next c => some c
    | _ => none

/-- The log lines the stage emitted, in order. -/
def logLines (o : Outcome) : List zerolog.Line :=
  o.events.filterMap fun e => match e with
    | Event.log l => some l
    | _ => none

/-- The stage's calls of the Store, in order. -/
def storeCalls (o : Outcome) : List Event :=
  o.events.filter fun e => match e with
    | Event.CreateUser _ => true
    | Event.Authenticate _ _ => true
    | Event.CreatInventory _ _ => true
    | Event.ViewInventory _ => true
    | Event.AutoMigrate => true
    | Event.Authentication _ _ => true
    | Event.dbCreate _ => true
    | _ => false

/-- The request bodies the stage handed to the JSON decoder, in order. -/
def bodyReads (o : Outcome) : List String :=
  o.events.filterMap fun e => match e with
    | Event.decodeBody b => some b
    | _ => none

/-- The arguments of the stage's calls of `GenerateToken`, in order. -/
def generateCalls (o : Outcome) : List jwt.RegisteredClaims :=
  o.events.filterMap fun e => match e with
    | Event.GenerateToken cl => some cl
    | _ => none

end Outcome

namespace middlewares

/-- Go `const TraceIdKey key = "1"`, of the package's own type `key`. -/
def TraceIdKey : context.Key := ⟨"middlewares.key", "1"⟩

/-- Go `type Mid struct { a *auth.Auth }`. -/
structure Mid where
  a : auth.Auth

/-- Go `Mid.Log`, the tracing stage. `traceId` is the value returned by
`uuid.NewString()` and `next` is the rest of the chain run by `c.Next()`.
The receiver chain of the deferred `Msg` call, with `c.Writer.Status()` in
it, is evaluated where the `defer` statement stands, before `c.Next()`; the
line itself is emitted when the function returns. -/
def Mid.Log (_m : Mid) (traceId : String) (next : gin.HandlerFunc) (c : gin.Context) : Outcome :=
  let ctx := c.Request.Context
  let ctx := context.WithValue ctx TraceIdKey (context.Val.str traceId)
  let req := c.Request.WithContext ctx
  let c := { c with Request := req }
  let started : zerolog.Line :=
    { level := "info",
      fields := [("Trace Id", .str traceId), ("Method", .str c.Request.Method),
                 ("URL Path", .str c.Request.URLPath)],
      msg := "request started" }
  let deferred : zerolog.Line :=
    { level := "info",
      fields := [("Trace Id", .str traceId), ("Method", .str c.Request.Method),
                 ("URL Path", .str c.Request.URLPath),
                 ("status Code", .int c.Writer.Status)],
      msg := "Request processing completed" }
  let c1 := next c
  { c := c1, events := [Event.log started, Event.next c, Event.log deferred] }

/-- Go `Mid.Authenticate`, the authorization stage wrapped around `next`. -/
def Mid.Authenticate (m : Mid) (next : gin.HandlerFunc) (c : gin.Context) : Outcome :=
  let ctx := c.Request.Context
  match context.assertString (context.Value ctx TraceIdKey) with
  | none =>
    { events := [Event.log ⟨"error", [], "trace id not present in the context"⟩],
      c := c.AbortWithStatusJSON http.StatusInternalServerError
        (gin.Body.H [("error", http.StatusText http.StatusInternalServerError)]) }
  | some traceId =>
    let authHeader := c.Request.Header.Get "Authorization"
    let parts := strings.Split authHeader ' '
    if parts.length ≠ 2 ∨ strings.ToLower (parts.getD 0 "") ≠ "bearer" then
      let err : GoError := "expected authorization header format: Bearer <token>"
      { events := [Event.log ⟨"error", [("error", .str err), ("Trace Id", .str traceId)], ""⟩],
        c := c.AbortWithStatusJSON http.StatusUnauthorized (gin.Body.H [("error", err)]) }
    else
      match m.a.ValidateToken (parts.getD 1 "") with
      | .error err =>
        { events := [Event.ValidateToken (parts.getD 1 ""),
                     Event.log ⟨"error", [("error", .str err), ("Trace Id", .str traceId)], ""⟩],
          c := c.AbortWithStatusJSON http.StatusUnauthorized
            (gin.Body.H [("error", http.StatusText http.StatusUnauthorized)]) }
      | .ok claims =>
        let ctx := context.WithValue ctx auth.Key (context.Val.claims claims)
        let req := c.Request.WithContext ctx
        let c := { c with Request := req }
        { events := [Event.ValidateToken (parts.getD 1 ""), Event.next c],
          c := next c }

end middlewares

namespace strconv

/-- The digit loop of Go `strconv.ParseUint(s, 10, 64)`: a character that is
not a decimal digit is a syntax error, a value that leaves 64 bits is a range
error, whichever comes first from the left. -/
def parseUintLoop : List Char → Nat → Except GoError Nat
  | [], n => .ok n
  | ch :: rest, n =>
    if '0' ≤ ch ∧ ch ≤ '9' then
      if n ≥ (2 ^ 64 - 1) / 10 + 1 then .error "value out of range"
      else
        let n1 := n * 10 + (ch.toNat - '0'.toNat)
        if n1 > 2 ^ 64 - 1 then .error "value out of range" else parseUintLoop rest n1
    else .error "invalid syntax"

/-- Go `strconv.ParseUint(s, 10, 64)`; the empty string is a syntax error. -/
def ParseUint (s : String) : Except GoError Nat :=
  if s.toList = [] then .error "invalid syntax" else parseUintLoop s.toList 0

end strconv

namespace handlers

/-- The local `login` struct of `Login`. -/
structure LoginData where
  Email : String
  Password : String
deriving DecidableEq, Repr

/-- The library calls the handlers make on the request body:
`json.NewDecoder(body).Decode(&v)` for the three body types, giving the
decoded value or an error, and `validator.New().Struct(v)`, giving an error
or nil. -/
structure Lib where
  decodeNewUser : String → Except GoError models.NewUser
  decodeLogin : String → Except GoError LoginData
  decodeNewInventory : String → Except GoError models.NewInventory
  validateNewUser : models.NewUser → Option GoError
  validateLogin : LoginData → Option GoError
  validateNewInventory : models.NewInventory → Option GoError

/-- Go `type handler struct { s models.Store; a *auth.Auth }`. -/
structure handler where
  s : models.Store
  a : auth.Auth

/-- Go `handler.Signup`. -/
def handler.Signup (h : handler) (lib : Lib) (c : gin.Context) : Outcome :=
  let ctx := c.Request.Context
  match context.assertString (context.Value ctx middlewares.TraceIdKey) with
  | none =>
    let err : GoError := "traceId missing from context"
    { events := [Event.log ⟨"error", [], "traceId missing from context"⟩],
      c := c.AbortWithStatusJSON http.StatusInternalServerError (gin.Body.H [("error", err)]) }
  | some traceId =>
    match lib.decodeNewUser c.Request.Body with
    | .error _ =>
      { events := [Event.decodeBody c.Request.Body],
        c := c.AbortWithStatusJSON http.StatusBadRequest (gin.Body.H [("msg", "Invalid JSON format")]) }
    | .ok nu =>
      match lib.validateNewUser nu with
      | some err =>
        { events := [Event.decodeBody c.Request.Body,
                     Event.log ⟨"error", [("error", .str err), ("Trace Id", .str traceId)], ""⟩],
          c := c.AbortWithStatusJSON http.StatusBadRequest (gin.Body.H [("msg", "Validation failed")]) }
      | none =>
        match h.s.CreateUser ctx nu with
        | .error err =>
          { events := [Event.decodeBody c.Request.Body, Event.CreateUser nu,
                       Event.log ⟨"error", [("error", .str err), ("Trace Id", .str traceId)],
                         "user signup problem"⟩],
            c := c.AbortWithStatusJSON http.StatusBadRequest (gin.Body.H [("msg", "user signup failed")]) }
        | .ok usr =>
          { events := [Event.decodeBody c.Request.Body, Event.CreateUser nu],
            c := c.JSON http.StatusOK (gin.Body.user usr) }

/-- Go `handler.Login`. -/
def handler.Login (h : handler) (lib : Lib) (c : gin.Context) : Outcome :=
  let ctx := c.Request.Context
  match context.assertString (context.Value ctx middlewares.TraceIdKey) with
  | none =>
    { events := [Event.log ⟨"error", [], "traceId missing from context"⟩],
      c := c.AbortWithStatusJSON http.StatusInternalServerError
        (gin.Body.H [("msg", http.StatusText http.StatusInternalServerError)]) }
  | some traceId =>
    match lib.decodeLogin c.Request.Body with
    | .error _ =>
      { events := [Event.decodeBody c.Request.Body],
        c := c.AbortWithStatusJSON http.StatusInternalServerError
          (gin.Body.H [("msg", http.StatusText http.StatusInternalServerError)]) }
    | .ok login =>
      match lib.validateLogin login with
      | some err =>
        { events := [Event.decodeBody c.Request.Body,
                     Event.log ⟨"error", [("error", .str err), ("Trace Id", .str traceId)], ""⟩],
          c := c.AbortWithStatusJSON http.StatusBadRequest
            (gin.Body.H [("msg", "please provide Email and Password")]) }
      | none =>
        match h.s.Authenticate ctx login.Email login.Password with
        | .error err =>
          { events := [Event.decodeBody c.Request.Body,
                       Event.Authenticate login.Email login.Password,
                       Event.log ⟨"error", [("error", .str err), ("Trace Id", .str traceId)], ""⟩],
            c := c.AbortWithStatusJSON http.StatusUnauthorized (gin.Body.H [("msg", "login failed")]) }
        | .ok claims =>
          match h.a.GenerateToken claims with
          | .error err =>
            { events := [Event.decodeBody c.Request.Body,
                         Event.Authenticate login.Email login.Password,
                         Event.GenerateToken claims,
                         Event.log ⟨"error", [("error", .str err)], "generating token"⟩],
              c := c.AbortWithStatusJSON http.StatusInternalServerError
                (gin.Body.H [("msg", http.StatusText http.StatusInternalServerError)]) }
          | .ok tkn =>
            { events := [Event.decodeBody c.Request.Body,
                         Event.Authenticate login.Email login.Password,
                         Event.GenerateToken claims],
              c := c.JSON http.StatusOK (gin.Body.token tkn) }

/-- Go `handler.AddInventory`. The conversion `uint(uid)` is that of a
platform with 64-bit `uint`. -/
def handler.AddInventory (h : handler) (lib : Lib) (c : gin.Context) : Outcome :=
  let ctx := c.Request.Context
  match context.assertString (context.Value ctx middlewares.TraceIdKey) with
  | none =>
    { events := [Event.log ⟨"error", [], "traceId missing from context"⟩],
      c := c.AbortWithStatusJSON http.StatusInternalServerError
        (gin.Body.H [("msg", http.StatusText http.StatusInternalServerError)]) }
  | some traceId =>
    match context.assertClaims (context.Value ctx auth.Key) with
    | none =>
      { events := [Event.log ⟨"error", [("Trace Id", .str traceId)], "login first"⟩],
        c := c.AbortWithStatusJSON http.StatusUnauthorized
          (gin.Body.H [("error", http.StatusText http.StatusUnauthorized)]) }
    | some claims =>
      match lib.decodeNewInventory c.Request.Body with
      | .error _ =>
        { events := [Event.decodeBody c.Request.Body,
                     Event.log ⟨"error", [("Trace Id", .str traceId)], "login first"⟩],
          c := c.AbortWithStatusJSON http.StatusUnauthorized
            (gin.Body.H [("error", http.StatusText http.StatusUnauthorized)]) }
      | .ok newInv =>
        match lib.validateNewInventory newInv with
        | some err =>
          { events := [Event.decodeBody c.Request.Body,
                       Event.log ⟨"error", [("error", .str err), ("Trace Id", .str traceId)], ""⟩],
            c := c.AbortWithStatusJSON http.StatusBadRequest
              (gin.Body.H [("msg", "please provide Item Name and Quantity")]) }
        | none =>
          match strconv.ParseUint claims.Subject with
          | .error _ =>
            { events := [Event.decodeBody c.Request.Body],
              c := c.AbortWithStatusJSON http.StatusInternalServerError
                (gin.Body.H [("msg", http.StatusText http.StatusInternalServerError)]) }
          | .ok uid =>
            match h.s.CreatInventory ctx newInv (uid % 2 ^ 64) with
            | .error _ =>
              { events := [Event.decodeBody c.Request.Body,
                           Event.CreatInventory newInv (uid % 2 ^ 64)],
                c := c.AbortWithStatusJSON http.StatusInternalServerError
                  (gin.Body.H [("msg", "Inventory creation failed")]) }
            | .ok inv =>
              { events := [Event.decodeBody c.Request.Body,
                           Event.CreatInventory newInv (uid % 2 ^ 64)],
                c := c.JSON http.StatusOK (gin.Body.inventory inv) }

/-- Go `handler.ViewInventory`. -/
def handler.ViewInventory (h : handler) (c : gin.Context) : Outcome :=
  let ctx := c.Request.Context
  match context.assertString (context.Value ctx middlewares.TraceIdKey) with
  | none =>
    { events := [Event.log ⟨"error", [], "traceId missing from context"⟩],
      c := c.AbortWithStatusJSON http.StatusInternalServerError
        (gin.Body.H [("msg", http.StatusText http.StatusInternalServerError)]) }
  | some traceId =>
    match context.assertClaims (context.Value ctx auth.Key) with
    | none =>
      { events := [Event.log ⟨"error", [("Trace Id", .str traceId)], "login first"⟩],
        c := c.AbortWithStatusJSON http.StatusUnauthorized
          (gin.Body.H [("error", http.StatusText http.StatusUnauthorized)]) }
    | some claims =>
      match h.s.ViewInventory ctx claims.Subject with
      | .error _ =>
        { events := [Event.ViewInventory claims.Subject],
          c := c.AbortWithStatusJSON http.StatusBadRequest
            (gin.Body.H [("msg", "problem in viewing inventory")]) }
      | .ok (shirts, total) =>
        { events := [Event.ViewInventory claims.Subject],
          c := c.JSON http.StatusOK (gin.Body.inventories shirts total) }

end handlers

/-! ## Concrete requests -/

namespace sample

/-- Claims of user 42, issued at second 1000 for one hour. -/
def claims42 : jwt.RegisteredClaims :=
  { Issuer := "service project", Subject := "42", Audience := ["students"],
    ExpiresAt := some 4600, NotBefore := none, IssuedAt := some 1000, ID := "" }

/-- A token service that accepts the token `good` and nothing else; it
reports the token `old` as expired and any other token as malformed. -/
def tokens : auth.Auth :=
  { GenerateToken := fun _ => .ok "good",
    ValidateToken := fun t =>
      if t = "good" then .ok claims42
      else if t = "old" then .error "token is expired"
      else .error "token is malformed" }

def mid : middlewares.Mid := ⟨tokens⟩

/-- A context as the tracing stage leaves it. -/
def traced : context.Context := [(middlewares.TraceIdKey, context.Val.str "trace-1")]

/-- A fresh request with the given context and Authorization header. -/
def request (ctx : context.Context) (authorization : String) : gin.Context :=
  { Request := { ctx := ctx, Header := [("Authorization", [authorization])],
                 Method := "GET", URLPath := "/view", Body := "" },
    Writer := { status := 200, written := [] },
    aborted := false }

/-- A next stage that answers 200 with an empty object. -/
def done : gin.HandlerFunc := fun c => c.JSON http.StatusOK (gin.Body.H [])

/-- A store that knows one user, number 42, and has no inventory. -/
def store : models.Store :=
  { CreateUser := fun _ nu => .ok ⟨42, nu.Name, nu.Email, "hash"⟩,
    Authenticate := fun _ email password =>
      if email = "ann@example.com" ∧ password = "secret" then .ok claims42
      else .error "record not found",
    CreatInventory := fun _ ni userId =>
      .ok ⟨ni.ItemName, ni.Quantity, ni.Category, userId, ni.CostPerItem⟩,
    ViewInventory := fun _ _ => .ok ([], ⟨0⟩) }

def h : handlers.handler := ⟨store, tokens⟩

/-- A decoder and validator that read the body `ann` as the login of the
known user, the body `bob` as the login of an unknown one, and accept no
other body. -/
def lib : handlers.Lib :=
  { decodeNewUser := fun _ => .error "EOF",
    decodeLogin := fun body =>
      if body = "ann" then .ok ⟨"ann@example.com", "secret"⟩
      else if body = "bob" then .ok ⟨"bob@example.com", "guess"⟩
      else .error "EOF",
    decodeNewInventory := fun _ => .error "EOF",
    validateNewUser := fun _ => none,
    validateLogin := fun _ => none,
    validateNewInventory := fun _ => none }

/-- A fresh request with the given context and body. -/
def post (ctx : context.Context) (body : String) : gin.Context :=
  { Request := { ctx := ctx, Header := [], Method := "POST", URLPath := "/login", Body := body },
    Writer := { status := 200, written := [] },
    aborted := false }

end sample

/-! ## The store of `service-app` (`models/serviceFunctions.go`) -/

namespace strconv

/-- The character of a decimal digit. -/
def digitChar (d : Nat) : Char := Char.ofNat ('0'.toNat + d)

/-- The digit loop of Go `strconv.FormatUint(i, 10)`: the decimal digits of
`u` are put in front of `acc`, the least significant first; twenty rounds
are enough for a 64-bit value. -/
def formatBits : Nat → Nat → List Char → List Char
  | 0, _, acc => acc
  | fuel + 1, u, acc =>
    if u < 10 then digitChar u :: acc
    else formatBits fuel (u / 10) (digitChar (u % 10) :: acc)

/-- Go `strconv.FormatUint(i, 10)` on a `uint64`. -/
def FormatUint (i : Nat) : String := String.mk (formatBits 20 i [])

end strconv

namespace time

/-- Go `time.Second`, in nanoseconds. -/
def Second : Int := 1000000000

/-- Go `time.Hour`, in nanoseconds. -/
def Hour : Int := 3600 * Second

end time

namespace jwt

/-- Go `jwt.NewNumericDate(t)` for a time given in Unix nanoseconds: the time
truncated to `jwt.TimePrecision`, one second. -/
def NewNumericDate (t : Int) : Option Int := some (t / time.Second)

end jwt

namespace gorm

/-- The queries that `Conn.Authenticate` and `Conn.ViewInventory` run on the
`*gorm.DB`: `Where("email = ?", email).First(&u)` and
`Where("user_id = ?", userId).Find(&inv)`, each giving the error of the
statement or what it loaded. -/
structure DB where
  First : String → Except GoError models.User
  Find : String → Except GoError (List models.Inventory)

end gorm

namespace models

/-- Go `type Conn struct { db *gorm.DB }`. -/
structure Conn where
  db : gorm.DB

/-- The arithmetic of the loop body `totalCost += CostPerItem *
float64(Quantity)` on `float64`, as the platform computes it (Go allows the
product and the sum to be fused). -/
structure Arith where
  mulAdd : Float64 → Float64 → Int → Float64

/-- The `for ... range inventories` loop of `CalculateTotalCost`. -/
def CalculateTotalCost.loop (fl : Arith) : List Inventory → Float64 → Float64
  | [], totalCost => totalCost
  | inventory :: rest, totalCost =>
    loop fl rest (fl.mulAdd totalCost inventory.CostPerItem inventory.Quantity)

/-- Go `CalculateTotalCost`; a slice is `none` when it is nil. -/
def CalculateTotalCost (fl : Arith) (inventories : Option (List Inventory))
    (category : String) : Float64 × Option GoError :=
  if category = "" then (⟨0⟩, some "category doesn\x27t exist")
  else
    match inventories with
    | none => (⟨0⟩, some "inventory not found")
    | some l => (CalculateTotalCost.loop fl l ⟨0⟩, none)

/-- Go `Conn.ViewInventory`. The slice made by `make([]Inventory, 0, 10)` and
filled by `Find` is not nil. -/
def Conn.ViewInventory (s : Conn) (fl : Arith) (userId : String) :
    Option (List Inventory) × Float64 × Option GoError :=
  match s.db.Find userId with
  | .error err => (none, ⟨0⟩, some err)
  | .ok rows =>
    let inv : Option (List Inventory) := some rows
    match CalculateTotalCost fl inv "shirts" with
    | (_, some err) => (none, ⟨0⟩, some err)
    | (totalCost, none) => (inv, totalCost, none)

/-- Go `Conn.Authenticate`. `compare` is `bcrypt.CompareHashAndPassword`;
`now1` and `now2` are the two readings of `time.Now()`, in Unix nanoseconds,
in the order the struct literal takes them: first for `ExpiresAt`, then for
`IssuedAt`. On failure the zero claims are returned with the error. -/
def Conn.Authenticate (s : Conn) (compare : String → String → Option GoError)
    (now1 now2 : Int) (email password : String) : jwt.RegisteredClaims × Option GoError :=
  match s.db.First email with
  | .error err => (⟨"", "", [], none, none, none, ""⟩, some err)
  | .ok u =>
    match compare u.PasswordHash password with
    | some err => (⟨"", "", [], none, none, none, ""⟩, some err)
    | none =>
      let c : jwt.RegisteredClaims :=
        { Issuer := "service project",
          Subject := strconv.FormatUint (u.ID % 2 ^ 64),
          Audience := ["students"],
          ExpiresAt := jwt.NewNumericDate (now1 + time.Hour),
          NotBefore := none,
          IssuedAt := jwt.NewNumericDate now2,
          ID := "" }
      (c, none)

end models

/-! ## Concrete stores -/

namespace sample

/-- A database with the one user, number 42, who has a shirt and a cap. -/
def db : gorm.DB :=
  { First := fun email =>
      if email = "ann@example.com" then .ok ⟨42, "Ann", "ann@example.com", "hash"⟩
      else .error "record not found",
    Find := fun userId =>
      if userId = "42" then .ok [⟨"shirt", 2, "shirts", 42, ⟨3⟩⟩, ⟨"cap", 1, "caps", 42, ⟨5⟩⟩]
      else .ok [] }

def conn : models.Conn := ⟨db⟩

/-- A password check that accepts the password `secret`. -/
def compare : String → String → Option GoError := fun _ password =>
  if password = "secret" then none
  else some "hashedPassword is not the hash of the given password"

/-- An arithmetic that reads the bit patterns as whole numbers. -/
def arith : models.Arith := ⟨fun t cost qty => ⟨t.bits + cost.bits * qty.toNat⟩⟩

end sample

/-! ## Tokens (`5-prog_SignUp_Login_Logger_API/auth/auth.go`) -/

namespace rsa

/-- An RSA private key, by its key material. -/
structure PrivateKey where
  pem : String
deriving DecidableEq, Repr

/-- An RSA public key, by its key material. -/
structure PublicKey where
  pem : String
deriving DecidableEq, Repr

end rsa

namespace jwt

/-- The parts of the jwt library behind signing and parsing a token with
`SigningMethodRS256`: the encoded header, the encoding of the claims segment
and its decoding, and the signature method, `Sign(signingString, key)`
giving the encoded signature or an error and `Verify(signingString,
signature, key)` telling whether the signature is good. -/
structure Lib where
  header : String
  encodeClaims : RegisteredClaims → String
  decodeClaims : String → Option RegisteredClaims
  Sign : String → rsa.PrivateKey → Except GoError String
  Verify : String → String → rsa.PublicKey → Bool

/-- Go `jwt.NewWithClaims(jwt.SigningMethodRS256, claims).SignedString(key)`:
the signing string, header and claims joined by a dot, followed by a dot and
its signature. -/
def Lib.SignedString (lib : Lib) (claims : RegisteredClaims) (key : rsa.PrivateKey) :
    Except GoError String :=
  let sstr := lib.header ++ "." ++ lib.encodeClaims claims
  match lib.Sign sstr key with
  | .error err => .error err
  | .ok sig => .ok (sstr ++ "." ++ sig)

end jwt

namespace prog5

namespace auth

/-- Go `type Auth struct { privateKey *rsa.PrivateKey; publicKey *rsa.PublicKey }`. -/
structure Auth where
  privateKey : rsa.PrivateKey
  publicKey : rsa.PublicKey

/-- Go `Auth.GenerateToken`. -/
def Auth.GenerateToken (a : Auth) (lib : jwt.Lib) (claims : jwt.RegisteredClaims) :
    String × Option GoError :=
  match lib.SignedString claims a.privateKey with
  | .error err => ("", some ("signing token " ++ err))
  | .ok tokenStr => (tokenStr, none)

/-- Modelled from the spec: `ValidateToken` is not among the sources. It
checks that the token is well-formed, three segments joined by dots of which
the second decodes to claims, that the signature is good for the
verification key, and that `expiresAt` has not passed at the validation time
`now` (Unix seconds); any failure is the single error `TokenInvalid`. -/
def Auth.ValidateToken (a : Auth) (lib : jwt.Lib) (now : Int) (token : String) :
    Except GoError jwt.RegisteredClaims :=
  match strings.Split token '.' with
  | [h, p, sig] =>
    match lib.decodeClaims p with
    | none => .error "TokenInvalid"
    | some claims =>
      if lib.Verify (h ++ "." ++ p) sig a.publicKey = false then .error "TokenInvalid"
      else
        match claims.ExpiresAt with
        | none => .ok claims
        | some exp => if now < exp then .ok claims else .error "TokenInvalid"
  | _ => .error "TokenInvalid"

end auth

end prog5

/-! ## The earlier iterations of the handlers -/

/-- The signup request of the earlier iterations, `models.NewUserReq`, has
the fields of `models.NewUser`; their packages `golang/models` are not
among the sources. -/
abbrev NewUserReq := models.NewUser

/-- The user record of the earlier iterations. -/
abbrev User := models.User

namespace prog3

namespace service

/-- The statements `Conn` runs on its `*gorm.DB`: `AutoMigrate(&models.User{})`,
giving its error, and `Create(&u1)`, giving the record as the database left
it and the error of the statement. -/
structure DB where
  AutoMigrate : Option GoError
  Create : User → User × Option GoError

/-- Go `type Conn struct { db *gorm.DB }`. -/
structure Conn where
  db : DB

/-- Go `Conn.AutoMigrate` of `3-prog_Signup_API/service/service.go`, with the
log line it emits. -/
def Conn.AutoMigrate (c : Conn) : Option GoError × List Event :=
  match c.db.AutoMigrate with
  | some err =>
    (some err,
     [Event.log ⟨"error", [("error", .str err)], "Failed to perform database migration"⟩])
  | none => (none, [])

/-- Go `Conn.CreateUser` of `3-prog_Signup_API/service/service.go`, with the
log lines it emits and the row it hands to `Create`. `hash` is
`bcrypt.GenerateFromPassword`; a failure of it is logged and the record is
created all the same. `NewUserReq` has the fields of `models.NewUser`. -/
def Conn.CreateUser (c : Conn) (hash : String → String × Option GoError)
    (nu : NewUserReq) : (User × Option GoError) × List Event :=
  let hashed := hash nu.Password
  let ev1 : List Event :=
    match hashed.2 with
    | some err => [Event.log ⟨"error", [("error", .str err)], "hash password is not generating."⟩]
    | none => []
  let u1 : User :=
    { ID := 0, Name := nu.Name, Email := nu.Email, PasswordHash := hashed.1 }
  let created := c.db.Create u1
  match created.2 with
  | some err =>
    ((created.1, some err),
     ev1 ++ [Event.dbCreate u1,
       Event.log ⟨"error", [("error", .str err), ("user_name", .str created.1.Name)],
         "Failed to create user"⟩])
  | none => ((created.1, none), ev1 ++ [Event.dbCreate u1])

end service

namespace handlers

/-- The library calls of the handler: the JSON decoder, giving what it left
in the variable and its error, the validator, and the password hash. -/
structure Lib where
  decodeNewUserReq : String → NewUserReq × Option GoError
  validateNewUserReq : NewUserReq → Option GoError
  GenerateFromPassword : String → String × Option GoError

/-- Go `type handler struct { db *service.Conn }`. -/
structure handler where
  db : service.Conn

/-- Go `handler.Signup` of `3-prog_Signup_API`. No branch returns: every
step runs on every request. -/
def handler.Signup (h : handler) (lib : Lib) (c : gin.Context) : Outcome :=
  let body := c.Request.Body
  let decoded := lib.decodeNewUserReq body
  let nu := decoded.1
  let o1 : Outcome :=
    match decoded.2 with
    | some err =>
      { c := c.AbortWithStatusJSON http.StatusBadRequest (gin.Body.H [("msg", "Invalid JSON format")]),
        events := [Event.decodeBody body,
          Event.log ⟨"error", [("error", .str err)], "Problem in reading request body"⟩] }
    | none => { c := c, events := [Event.decodeBody body] }
  let o2 : Outcome :=
    match lib.validateNewUserReq nu with
    | some err =>
      { c := o1.c.AbortWithStatusJSON http.StatusBadGateway (gin.Body.H [("msg", "Validation failed")]),
        events := o1.events ++
          [Event.log ⟨"error", [("error", .str err)], "please provide name, email and password."⟩] }
    | none => o1
  let migrated := h.db.AutoMigrate
  let o3 : Outcome :=
    match migrated.1 with
    | some err =>
      { c := o2.c,
        events := o2.events ++ [Event.AutoMigrate] ++ migrated.2 ++
          [Event.log ⟨"error", [("error", .str err)], "check handler"⟩] }
    | none => { c := o2.c, events := o2.events ++ [Event.AutoMigrate] ++ migrated.2 }
  let created := h.db.CreateUser lib.GenerateFromPassword nu
  let newRecord := created.1.1
  let o4 : Outcome :=
    match created.1.2 with
    | some err =>
      { c := o3.c,
        events := o3.events ++ [Event.CreateUser nu] ++ created.2 ++
          [Event.log ⟨"error", [("error", .str err)], "check handler"⟩] }
    | none => { c := o3.c, events := o3.events ++ [Event.CreateUser nu] ++ created.2 }
  { c := o4.c.JSON http.StatusOK (gin.Body.user newRecord),
    events := o4.events ++
      [Event.log ⟨"info", [("user_name", .str newRecord.Name)], "User created successfully"⟩] }

end handlers

end prog3

namespace prog5

namespace middleware

/-- Modelled from the spec: package `golang/middleware` of this iteration is
not among the sources. `TrackerIdKey` is the context key under which its
tracing stage attaches the trace id, a constant of a type of that package. -/
def TrackerIdKey : context.Key := ⟨"middleware.key", "1"⟩

end middleware

namespace models

/-- The login request of this iteration, `models.LoginReq`; package
`golang/models` is not among the sources. `Login` reads its `Email`. -/
structure LoginReq where
  Email : String
  Password : String
deriving DecidableEq, Repr

end models

namespace service

/-- The methods of `*service.Conn` the handlers of this iteration call;
package `golang/service` of this iteration is not among the sources. Each
gives its result and its error, as the handlers go on with the result
whatever the error. `NewUserReq` has the fields of `models.NewUser`. -/
structure Conn where
  AutoMigrate : Option GoError
  CreateUser : NewUserReq → User × Option GoError
  Authentication : models.LoginReq → jwt.RegisteredClaims × Option GoError

end service

namespace handlers

/-- The library calls of the handlers: the JSON decoder for the two body
types, giving what it left in the variable and its error, the validator,
and the jwt library used by `GenerateToken`. -/
structure Lib where
  decodeNewUserReq : String → NewUserReq × Option GoError
  validateNewUserReq : NewUserReq → Option GoError
  decodeLoginReq : String → models.LoginReq × Option GoError
  validateLoginReq : models.LoginReq → Option GoError
  tokens : jwt.Lib

/-- Go `type handler struct { db *service.Conn; a *auth.Auth }`. -/
structure handler where
  db : service.Conn
  a : auth.Auth

/-- Go `handler.Signup` of `5-prog_SignUp_Login_Logger_API`. Only the branch
of the missing trace id returns. -/
def handler.Signup (h : handler) (lib : Lib) (c : gin.Context) : Outcome :=
  let ctx := c.Request.Context
  match context.assertString (context.Value ctx middleware.TrackerIdKey) with
  | none =>
    { events := [Event.log ⟨"error", [], "traceId missing from context"⟩],
      c := c.AbortWithStatusJSON http.StatusInternalServerError
        (gin.Body.H [("msg", "Track Id missing")]) }
  | some traceId =>
    let body := c.Request.Body
    let decoded := lib.decodeNewUserReq body
    let nu := decoded.1
    let o1 : Outcome :=
      match decoded.2 with
      | some err =>
        { c := c.AbortWithStatusJSON http.StatusBadRequest
            (gin.Body.H [("msg", "Invalid JSON format for new user")]),
          events := [Event.decodeBody body,
            Event.log ⟨"error", [("error", .str err), ("Trace Id", .str traceId)],
              "Problem in reading request body for new user"⟩] }
      | none => { c := c, events := [Event.decodeBody body] }
    let o2 : Outcome :=
      match lib.validateNewUserReq nu with
      | some err =>
        { c := o1.c.AbortWithStatusJSON http.StatusBadGateway
            (gin.Body.H [("msg", "Validation failed")]),
          events := o1.events ++
            [Event.log ⟨"error", [("error", .str err), ("Trace Id", .str traceId)],
              "please provide name, email and password."⟩] }
      | none => o1
    let o3 : Outcome :=
      match h.db.AutoMigrate with
      | some err =>
        { c := o2.c,
          events := o2.events ++ [Event.AutoMigrate,
            Event.log ⟨"error", [("error", .str err), ("Trace Id", .str traceId)],
              "check handler"⟩] }
      | none => { c := o2.c, events := o2.events ++ [Event.AutoMigrate] }
    let created := h.db.CreateUser nu
    let newRecord := created.1
    let o4 : Outcome :=
      match created.2 with
      | some err =>
        { c := o3.c,
          events := o3.events ++ [Event.CreateUser nu,
            Event.log ⟨"error", [("error", .str err), ("Trace Id", .str traceId)],
              "check handler"⟩] }
      | none => { c := o3.c, events := o3.events ++ [Event.CreateUser nu] }
    { c := o4.c.JSON http.StatusOK (gin.Body.user newRecord),
      events := o4.events ++
        [Event.log ⟨"info", [("user_name", .str newRecord.Name), ("Trace Id", .str traceId)],
          "User created successfully"⟩] }

/-- Go `handler.Login` of `5-prog_SignUp_Login_Logger_API`. The branches of
the missing trace id, of the decoder and of the validator do not return;
after a failed type assertion `traceId` is the empty string. -/
def handler.Login (h : handler) (lib : Lib) (c : gin.Context) : Outcome :=
  let ctx := c.Request.Context
  let asserted := context.assertString (context.Value ctx middleware.TrackerIdKey)
  let traceId := asserted.getD ""
  let o0 : Outcome :=
    match asserted with
    | none =>
      { events := [Event.log ⟨"error", [], "traceId missing from context"⟩],
        c := c.AbortWithStatusJSON http.StatusInternalServerError
          (gin.Body.H [("msg", "Track Id missing")]) }
    | some _ => { c := c, events := [] }
  let credit := c.Request.Body
  let decoded := lib.decodeLoginReq credit
  let user := decoded.1
  let o1 : Outcome :=
    match decoded.2 with
    | some err =>
      { c := o0.c.AbortWithStatusJSON http.StatusBadRequest
          (gin.Body.H [("msg", "Invalid JSON format for for login")]),
        events := o0.events ++ [Event.decodeBody credit,
          Event.log ⟨"error", [("error", .str err), ("Trace Id", .str traceId)],
            "Problem in reading request body for login"⟩] }
    | none => { c := o0.c, events := o0.events ++ [Event.decodeBody credit] }
  let o2 : Outcome :=
    match lib.validateLoginReq user with
    | some err =>
      { c := o1.c.AbortWithStatusJSON http.StatusBadGateway
          (gin.Body.H [("msg", "Validation failed, please provide all credentials")]),
        events := o1.events ++
          [Event.log ⟨"error", [("error", .str err)],
            "please provide all credentials, Name and Password"⟩] }
    | none => o1
  let authenticated := h.db.Authentication user
  match authenticated.2 with
  | some err =>
    { c := o2.c.AbortWithStatusJSON http.StatusBadGateway
        (gin.Body.H [("msg",
          "Authentication failed, check user and password or registered claims,")]),
      events := o2.events ++ [Event.Authentication user.Email user.Password,
        Event.log ⟨"error", [("error", .str err), ("Trace Id", .str traceId)],
          "password didn\x27t match: handler layer"⟩] }
  | none =>
    let claims := authenticated.1
    let generated := h.a.GenerateToken lib.tokens claims
    match generated.2 with
    | some err =>
      { c := o2.c.AbortWithStatusJSON http.StatusInternalServerError
          (gin.Body.H [("msg", "error in token generation")]),
        events := o2.events ++ [Event.Authentication user.Email user.Password,
          Event.GenerateToken claims,
          Event.log ⟨"error", [("error", .str err), ("Trace Id", .str traceId)],
            "generating token"⟩] }
    | none =>
      { c := o2.c.JSON http.StatusOK (gin.Body.H [("Msg", "Login Succesfull...")]),
        events := o2.events ++ [Event.Authentication user.Email user.Password,
          Event.GenerateToken claims,
          Event.log ⟨"info", [("user_name", .str user.Email)], "Login successfully..."⟩] }

end handlers

end prog5

/-! ## Concrete token service and earlier handlers -/

namespace sample

/-- A toy token library: the claims segment is the subject, the signature is
the signing string without its dots, reversed, followed by the key. -/
def signer : jwt.Lib :=
  { header := "hdr",
    encodeClaims := fun c => c.Subject,
    decodeClaims := fun s => if s = "42" then some claims42 else none,
    Sign := fun m key =>
      .ok (String.mk ((m.toList.filter (fun ch => ch != '.')).reverse ++ '-' :: key.pem.toList)),
    Verify := fun m sig key =>
      sig == String.mk ((m.toList.filter (fun ch => ch != '.')).reverse ++ '-' :: key.pem.toList) }

/-- A key pair whose two keys match under the toy library. -/
def keys : prog5.auth.Auth := ⟨⟨"k1"⟩, ⟨"k1"⟩⟩

/-- A decoder that reads the body `ann` as a signup and rejects any other
body, leaving the variable zero; a validator that requires a name. -/
def lib3 : prog3.handlers.Lib :=
  { decodeNewUserReq := fun body =>
      if body = "ann" then (⟨"Ann", "ann@example.com", "secret"⟩, none)
      else (⟨"", "", ""⟩, some "invalid character"),
    validateNewUserReq := fun nu => if nu.Name = "" then some "Name is required" else none,
    GenerateFromPassword := fun _ => ("hash", none) }

/-- A database that stores every record as number 1. -/
def h3 : prog3.handlers.handler :=
  ⟨⟨{ AutoMigrate := none, Create := fun u => (⟨1, u.Name, u.Email, u.PasswordHash⟩, none) }⟩⟩

def lib5 : prog5.handlers.Lib :=
  { decodeNewUserReq := fun body =>
      if body = "ann" then (⟨"Ann", "ann@example.com", "secret"⟩, none)
      else (⟨"", "", ""⟩, some "invalid character"),
    validateNewUserReq := fun nu => if nu.Name = "" then some "Name is required" else none,
    decodeLoginReq := fun body =>
      if body = "ann" then (⟨"ann@example.com", "secret"⟩, none)
      else (⟨"", ""⟩, some "invalid character"),
    validateLoginReq := fun u => if u.Email = "" then some "Email is required" else none,
    tokens := signer }

def h5 : prog5.handlers.handler :=
  { db :=
      { AutoMigrate := none,
        CreateUser := fun nu => (⟨1, nu.Name, nu.Email, "hash"⟩, none),
        Authentication := fun u =>
          if u.Email = "ann@example.com" ∧ u.Password = "secret" then (claims42, none)
          else (⟨"", "", [], none, none, none, ""⟩, some "record not found") },
    a := keys }

/-- A context as the tracing stage of the fifth iteration leaves it. -/
def traced5 : context.Context := [(prog5.middleware.TrackerIdKey, context.Val.str "trace-1")]

end sample

/-! ## Facts about the library model -/

theorem splitChars_ne_nil (sep : Char) (l : List Char) : strings.splitChars sep l ≠ [] := by
  induction l with
  | nil => simp [strings.splitChars]
  | cons a l ih =>
    unfold strings.splitChars
    split
    · simp
    · cases h : strings.splitChars sep l with
      | nil => exact absurd h ih
      | cons p ps => simp [strings.consHead]

theorem splitChars_of_not_mem (sep : Char) (l : List Char) (h : sep ∉ l) :
    strings.splitChars sep l = [l] := by
  induction l with
  | nil => simp [strings.splitChars]
  | cons a l ih =>
    have ha : ¬ a = sep := fun e => h (by simp [e])
    have hl : sep ∉ l := fun e => h (by simp [e])
    simp [strings.splitChars, ha, ih hl, strings.consHead]

theorem splitChars_append_sep (sep : Char) (s t : List Char) (hs : sep ∉ s) :
    strings.splitChars sep (s ++ sep :: t) = s :: strings.splitChars sep t := by
  induction s with
  | nil => simp [strings.splitChars]
  | cons a s ih =>
    have ha : ¬ a = sep := fun e => hs (by simp [e])
    have hl : sep ∉ s := fun e => hs (by simp [e])
    simp [strings.splitChars, ha, ih hl, strings.consHead]

/-- The number of pieces is the number of separators plus one, as in Go. -/
theorem splitChars_length (sep : Char) (l : List Char) :
    (strings.splitChars sep l).length = l.count sep + 1 := by
  induction l with
  | nil => simp [strings.splitChars]
  | cons a l ih =>
    unfold strings.splitChars
    by_cases ha : a = sep
    · subst ha
      simp [ih]
    · have hne : (a == sep) = false := by simpa using ha
      rw [if_neg ha, List.count_cons, hne]
      cases h : strings.splitChars sep l with
      | nil => exact absurd h (splitChars_ne_nil sep l)
      | cons p ps =>
        rw [h] at ih
        simpa [strings.consHead] using ih

/-- A scheme word and a token without spaces, joined by one space, split
into exactly those two parts. -/
theorem Split_scheme_token (s t : String) (hs : ' ' ∉ s.toList) (ht : ' ' ∉ t.toList) :
    strings.Split (s ++ " " ++ t) ' ' = [s, t] := by
  have h1 : (s ++ " " ++ t).toList = s.toList ++ ' ' :: t.toList := by
    simp [String.toList]
  unfold strings.Split
  rw [h1, splitChars_append_sep _ _ _ hs, splitChars_of_not_mem _ _ ht]
  simp [String.toList]

theorem assertString_eq_some (v : Option context.Val) (s : String) :
    context.assertString v = some s ↔ v = some (context.Val.str s) := by
  cases v with
  | none => simp [context.assertString]
  | some x => cases x <;> simp [context.assertString]

theorem assertClaims_eq_some (v : Option context.Val) (cl : jwt.RegisteredClaims) :
    context.assertClaims v = some cl ↔ v = some (context.Val.claims cl) := by
  cases v with
  | none => simp [context.assertClaims]
  | some x => cases x <;> simp [context.assertClaims]

/-! ## The four exits of the authorization stage -/

theorem Authenticate_no_trace (m : middlewares.Mid) (next : gin.HandlerFunc) (c : gin.Context)
    (h : context.assertString (context.Value c.Request.Context middlewares.TraceIdKey) = none) :
    middlewares.Mid.Authenticate m next c =
      { events := [Event.log ⟨"error", [], "trace id not present in the context"⟩],
        c := c.AbortWithStatusJSON 500 (gin.Body.H [("error", "Internal Server Error")]) } := by
  unfold middlewares.Mid.Authenticate
  simp only [h]
  rfl

theorem Authenticate_malformed (m : middlewares.Mid) (next : gin.HandlerFunc) (c : gin.Context)
    (traceId : String)
    (h : context.assertString (context.Value c.Request.Context middlewares.TraceIdKey) = some traceId)
    (hbad : (strings.Split (c.Request.Header.Get "Authorization") ' ').length ≠ 2 ∨
      strings.ToLower ((strings.Split (c.Request.Header.Get "Authorization") ' ').getD 0 "") ≠ "bearer") :
    middlewares.Mid.Authenticate m next c =
      { events := [Event.log ⟨"error",
          [("error", .str "expected authorization header format: Bearer <token>"),
           ("Trace Id", .str traceId)], ""⟩],
        c := c.AbortWithStatusJSON 401
          (gin.Body.H [("error", "expected authorization header format: Bearer <token>")]) } := by
  unfold middlewares.Mid.Authenticate
  simp only [h]
  rw [if_pos hbad]
  rfl

theorem Authenticate_invalid (m : middlewares.Mid) (next : gin.HandlerFunc) (c : gin.Context)
    (traceId p0 p1 : String) (err : GoError)
    (h : context.assertString (context.Value c.Request.Context middlewares.TraceIdKey) = some traceId)
    (hsplit : strings.Split (c.Request.Header.Get "Authorization") ' ' = [p0, p1])
    (hlow : strings.ToLower p0 = "bearer")
    (hv : m.a.ValidateToken p1 = .error err) :
    middlewares.Mid.Authenticate m next c =
      { events := [Event.ValidateToken p1,
          Event.log ⟨"error", [("error", .str err), ("Trace Id", .str traceId)], ""⟩],
        c := c.AbortWithStatusJSON 401 (gin.Body.H [("error", "Unauthorized")]) } := by
  unfold middlewares.Mid.Authenticate
  simp only [h, hsplit]
  rw [if_neg (by simp [hlow])]
  simp only [List.getD_cons_succ, List.getD_cons_zero, hv]
  rfl

theorem Authenticate_valid (m : middlewares.Mid) (next : gin.HandlerFunc) (c : gin.Context)
    (traceId p0 p1 : String) (claims : jwt.RegisteredClaims)
    (h : context.assertString (context.Value c.Request.Context middlewares.TraceIdKey) = some traceId)
    (hsplit : strings.Split (c.Request.Header.Get "Authorization") ' ' = [p0, p1])
    (hlow : strings.ToLower p0 = "bearer")
    (hv : m.a.ValidateToken p1 = .ok claims) :
    middlewares.Mid.Authenticate m next c =
      { events := [Event.ValidateToken p1, Event.next { c with Request :=
          (c.Request.WithContext (context.WithValue c.Request.Context auth.Key (.claims claims))) }],
        c := next { c with Request :=
          (c.Request.WithContext (context.WithValue c.Request.Context auth.Key (.claims claims))) } } := by
  unfold middlewares.Mid.Authenticate
  simp only [h, hsplit]
  rw [if_neg (by simp [hlow])]
  simp only [List.getD_cons_succ, List.getD_cons_zero, hv]

/-- Every run of the authorization stage leaves through one of its four
exits. -/
theorem Authenticate_exits (m : middlewares.Mid) (c : gin.Context) :
    context.assertString (context.Value c.Request.Context middlewares.TraceIdKey) = none ∨
    (∃ traceId,
      context.assertString (context.Value c.Request.Context middlewares.TraceIdKey) = some traceId ∧
      (((strings.Split (c.Request.Header.Get "Authorization") ' ').length ≠ 2 ∨
        strings.ToLower ((strings.Split (c.Request.Header.Get "Authorization") ' ').getD 0 "")
          ≠ "bearer") ∨
       (∃ p0 p1, strings.Split (c.Request.Header.Get "Authorization") ' ' = [p0, p1] ∧
          strings.ToLower p0 = "bearer" ∧
          ((∃ err, m.a.ValidateToken p1 = .error err) ∨
           (∃ claims, m.a.ValidateToken p1 = .ok claims))))) := by
  cases h : context.assertString (context.Value c.Request.Context middlewares.TraceIdKey) with
  | none => exact Or.inl rfl
  | some traceId =>
    refine Or.inr ⟨traceId, rfl, ?_⟩
    by_cases hbad : (strings.Split (c.Request.Header.Get "Authorization") ' ').length ≠ 2 ∨
        strings.ToLower ((strings.Split (c.Request.Header.Get "Authorization") ' ').getD 0 "")
          ≠ "bearer"
    · exact Or.inl hbad
    · right
      rw [not_or, not_not, not_not] at hbad
      obtain ⟨hlen, hlow⟩ := hbad
      obtain ⟨p0, p1, hp⟩ := List.length_eq_two.mp hlen
      rw [hp] at hlow
      refine ⟨p0, p1, hp, by simpa using hlow, ?_⟩
      cases hv : m.a.ValidateToken p1 with
      | error err => exact Or.inl ⟨err, rfl⟩
      | ok claims => exact Or.inr ⟨claims, rfl⟩

/-! ## Claims on the authorization stage -/

/-- C1: the authorization stage invokes `next` exactly when the context holds
a string under `TraceIdKey`, the Authorization header splits on a space into
two parts of which the first lower-cases to `bearer`, and `ValidateToken`
accepts the second part; it invokes `next` at most once, and in every other
case the request is aborted and `next` is not invoked. -/
theorem Authenticate_invokes_next_iff (m : middlewares.Mid) (next : gin.HandlerFunc)
    (c : gin.Context) :
    ((∃ c1, Event.next c1 ∈ (middlewares.Mid.Authenticate m next c).events) ↔
      ((∃ traceId, context.Value c.Request.Context middlewares.TraceIdKey
          = some (context.Val.str traceId)) ∧
       (∃ p0 p1 claims, strings.Split (c.Request.Header.Get "Authorization") ' ' = [p0, p1] ∧
          strings.ToLower p0 = "bearer" ∧ m.a.ValidateToken p1 = .ok claims))) ∧
    (middlewares.Mid.Authenticate m next c).nextCalls.length ≤ 1 ∧
    ((middlewares.Mid.Authenticate m next c).nextCalls = [] →
      (middlewares.Mid.Authenticate m next c).c.aborted = true ∧
      ∃ code obj, (middlewares.Mid.Authenticate m next c).c = c.AbortWithStatusJSON code obj) ∧
    ((middlewares.Mid.Authenticate m next c).nextCalls = [] ↔
      ¬ ∃ c1, Event.next c1 ∈ (middlewares.Mid.Authenticate m next c).events) := by
  rcases Authenticate_exits m c with
    h | ⟨traceId, h, hbad | ⟨p0, p1, hp, hlow, ⟨err, hv⟩ | ⟨claims, hv⟩⟩⟩
  · rw [Authenticate_no_trace m next c h]
    have h2 : ∀ t, ¬ context.Value c.Request.Context middlewares.TraceIdKey
        = some (context.Val.str t) := by
      intro t ht
      rw [← assertString_eq_some, h] at ht
      exact absurd ht (by simp)
    refine ⟨?_, by simp [Outcome.nextCalls], ?_, by simp [Outcome.nextCalls]⟩
    · simp [h2]
    · intro _
      exact ⟨rfl, _, _, rfl⟩
  · rw [Authenticate_malformed m next c traceId h hbad]
    refine ⟨?_, by simp [Outcome.nextCalls], ?_, by simp [Outcome.nextCalls]⟩
    · constructor
      · simp
      · rintro ⟨-, p0, p1, claims, hp, hlow, -⟩
        rw [hp] at hbad
        simp [hlow] at hbad
    · intro _
      exact ⟨rfl, _, _, rfl⟩
  · rw [Authenticate_invalid m next c traceId p0 p1 err h hp hlow hv]
    refine ⟨?_, by simp [Outcome.nextCalls], ?_, by simp [Outcome.nextCalls]⟩
    · constructor
      · simp
      · rintro ⟨-, q0, q1, claims, hq, -, hok⟩
        rw [hp] at hq
        simp only [List.cons.injEq, and_true] at hq
        rw [← hq.2, hv] at hok
        exact absurd hok (by simp)
    · intro _
      exact ⟨rfl, _, _, rfl⟩
  · rw [Authenticate_valid m next c traceId p0 p1 claims h hp hlow hv]
    refine ⟨?_, by simp [Outcome.nextCalls], ?_, by simp [Outcome.nextCalls]⟩
    · constructor
      · intro _
        exact ⟨⟨traceId, (assertString_eq_some _ _).mp h⟩, p0, p1, claims, hp, hlow, hv⟩
      · intro _
        exact ⟨_, List.mem_cons_of_mem _ (List.mem_singleton.mpr rfl)⟩
    · intro hn
      simp [Outcome.nextCalls] at hn

/-- C2: when the context holds a trace id and the Authorization header is not
of the two-part form (its split on a space is not two parts of which the first
lower-cases to `bearer`), the authorization stage writes one response of
status 401, aborts, and calls neither `ValidateToken` nor `next`; the headers
`Token abc`, `Bearer` and the empty header are of that kind. -/
theorem Authenticate_malformed_header_401 (m : middlewares.Mid) (next : gin.HandlerFunc)
    (c : gin.Context) (traceId : String)
    (htrace : context.Value c.Request.Context middlewares.TraceIdKey
      = some (context.Val.str traceId))
    (hform : ∀ p0 p1, strings.Split (c.Request.Header.Get "Authorization") ' ' = [p0, p1] →
      strings.ToLower p0 ≠ "bearer") :
    ((middlewares.Mid.Authenticate m next c).c.Writer.written = c.Writer.written ++
        [(401, gin.Body.H [("error", "expected authorization header format: Bearer <token>")])] ∧
     (c.Writer.written = [] → (middlewares.Mid.Authenticate m next c).c.Writer.Status = 401) ∧
     (middlewares.Mid.Authenticate m next c).c.aborted = true ∧
     (middlewares.Mid.Authenticate m next c).validateCalls = [] ∧
     (middlewares.Mid.Authenticate m next c).nextCalls = []) ∧
    (∀ h ∈ ["Token abc", "Bearer", ""], ∀ p0 p1,
      strings.Split h ' ' = [p0, p1] → strings.ToLower p0 ≠ "bearer") := by
  constructor
  · have h := (assertString_eq_some _ _).mpr htrace
    have hbad : (strings.Split (c.Request.Header.Get "Authorization") ' ').length ≠ 2 ∨
        strings.ToLower ((strings.Split (c.Request.Header.Get "Authorization") ' ').getD 0 "")
          ≠ "bearer" := by
      by_cases hlen : (strings.Split (c.Request.Header.Get "Authorization") ' ').length = 2
      · obtain ⟨p0, p1, hp⟩ := List.length_eq_two.mp hlen
        right
        rw [hp]
        simpa using hform p0 p1 hp
      · exact Or.inl hlen
    rw [Authenticate_malformed m next c traceId h hbad]
    refine ⟨rfl, ?_, rfl, by simp [Outcome.validateCalls], by simp [Outcome.nextCalls]⟩
    intro hw
    simp [gin.Context.AbortWithStatusJSON, gin.ResponseWriter.writeJSON,
      gin.ResponseWriter.Status, hw]
  · intro h hmem p0 p1 hp
    simp only [List.mem_cons, List.mem_singleton, List.not_mem_nil, or_false] at hmem
    rcases hmem with rfl | rfl | rfl
    · have e : strings.Split "Token abc" ' ' = ["Token", "abc"] := by decide
      rw [e] at hp
      simp only [List.cons.injEq, and_true] at hp
      rw [← hp.1]
      decide
    · have e : strings.Split "Bearer" ' ' = ["Bearer"] := by decide
      rw [e] at hp
      simp at hp
    · have e : strings.Split "" ' ' = [""] := by decide
      rw [e] at hp
      simp at hp

theorem Authenticate_malformed_header_401_witness :
    context.Value (sample.request sample.traced "Token abc").Request.Context
        middlewares.TraceIdKey = some (context.Val.str "trace-1") ∧
    (middlewares.Mid.Authenticate sample.mid sample.done
        (sample.request sample.traced "Token abc")).c.Writer.written =
      [(401, gin.Body.H [("error", "expected authorization header format: Bearer <token>")])] ∧
    (middlewares.Mid.Authenticate sample.mid sample.done
        (sample.request sample.traced "Token abc")).validateCalls = [] :=
  have hform : ∀ p0 p1, strings.Split
      ((sample.request sample.traced "Token abc").Request.Header.Get "Authorization") ' '
        = [p0, p1] → strings.ToLower p0 ≠ "bearer" := by
    intro p0 p1 hp
    have e : strings.Split
        ((sample.request sample.traced "Token abc").Request.Header.Get "Authorization") ' '
          = ["Token", "abc"] := by decide
    rw [e] at hp
    simp only [List.cons.injEq, and_true] at hp
    rw [← hp.1]
    decide
  have main := (Authenticate_malformed_header_401 sample.mid sample.done
    (sample.request sample.traced "Token abc") "trace-1" (by decide) hform).1
  ⟨by decide, main.1, main.2.2.2.1⟩

/-- C3: the scheme keyword is case-insensitive. Two requests that agree on
context and response state and whose Authorization headers are `s1 t` and
`s2 t`, with scheme words `s1`, `s2` equal up to letter case and a token `t`
without spaces, make the same calls of `ValidateToken` (the single call with
argument `t` when the scheme is `bearer` and a trace id is present) and have
the same outcome: the same response and abort state when the stage rejects,
the same context with the same claims handed to `next` when it accepts. -/
theorem Authenticate_scheme_case_insensitive (m : middlewares.Mid) (next : gin.HandlerFunc)
    (c1 c2 : gin.Context) (s1 s2 t : String)
    (hs1 : ' ' ∉ s1.toList) (hs2 : ' ' ∉ s2.toList) (ht : ' ' ∉ t.toList)
    (hcase : strings.ToLower s1 = strings.ToLower s2)
    (hh1 : c1.Request.Header.Get "Authorization" = s1 ++ " " ++ t)
    (hh2 : c2.Request.Header.Get "Authorization" = s2 ++ " " ++ t)
    (hctx : c1.Request.Context = c2.Request.Context)
    (hw : c1.Writer = c2.Writer) (hab : c1.aborted = c2.aborted) :
    (middlewares.Mid.Authenticate m next c1).validateCalls
      = (middlewares.Mid.Authenticate m next c2).validateCalls ∧
    ((∃ traceId, context.Value c1.Request.Context middlewares.TraceIdKey
        = some (context.Val.str traceId)) → strings.ToLower s1 = "bearer" →
      (middlewares.Mid.Authenticate m next c1).validateCalls = [t] ∧
      (middlewares.Mid.Authenticate m next c2).validateCalls = [t]) ∧
    (middlewares.Mid.Authenticate m next c1).nextCalls.map
        (fun x => (x.Request.Context, x.Writer, x.aborted))
      = (middlewares.Mid.Authenticate m next c2).nextCalls.map
        (fun x => (x.Request.Context, x.Writer, x.aborted)) ∧
    (middlewares.Mid.Authenticate m next c1).logLines
      = (middlewares.Mid.Authenticate m next c2).logLines ∧
    ((middlewares.Mid.Authenticate m next c1).nextCalls = [] →
      (middlewares.Mid.Authenticate m next c1).c.Writer
        = (middlewares.Mid.Authenticate m next c2).c.Writer ∧
      (middlewares.Mid.Authenticate m next c1).c.aborted
        = (middlewares.Mid.Authenticate m next c2).c.aborted ∧
      (middlewares.Mid.Authenticate m next c1).c.Request.Context
        = (middlewares.Mid.Authenticate m next c2).c.Request.Context) := by
  have hp1 : strings.Split (c1.Request.Header.Get "Authorization") ' ' = [s1, t] := by
    rw [hh1]
    exact Split_scheme_token s1 t hs1 ht
  have hp2 : strings.Split (c2.Request.Header.Get "Authorization") ' ' = [s2, t] := by
    rw [hh2]
    exact Split_scheme_token s2 t hs2 ht
  cases h1 : context.assertString (context.Value c1.Request.Context middlewares.TraceIdKey) with
  | none =>
    have h2 : context.assertString (context.Value c2.Request.Context middlewares.TraceIdKey)
        = none := by rw [← hctx]; exact h1
    have hno : ¬ ∃ traceId, context.Value c1.Request.Context middlewares.TraceIdKey
        = some (context.Val.str traceId) := by
      rintro ⟨x, hx⟩
      rw [← assertString_eq_some, h1] at hx
      exact absurd hx (by simp)
    rw [Authenticate_no_trace m next c1 h1, Authenticate_no_trace m next c2 h2]
    refine ⟨rfl, fun hex => absurd hex hno, rfl, rfl, fun _ => ?_⟩
    simp [gin.Context.AbortWithStatusJSON, hw, hctx, gin.Request.Context] at *
    exact hctx
  | some traceId =>
    have h2 : context.assertString (context.Value c2.Request.Context middlewares.TraceIdKey)
        = some traceId := by rw [← hctx]; exact h1
    by_cases hlow : strings.ToLower s1 = "bearer"
    · have hlow2 : strings.ToLower s2 = "bearer" := by rw [← hcase]; exact hlow
      cases hv : m.a.ValidateToken t with
      | error err =>
        rw [Authenticate_invalid m next c1 traceId s1 t err h1 hp1 hlow hv,
          Authenticate_invalid m next c2 traceId s2 t err h2 hp2 hlow2 hv]
        refine ⟨rfl, fun _ _ => ⟨by simp [Outcome.validateCalls], by simp [Outcome.validateCalls]⟩,
          rfl, rfl, fun _ => ?_⟩
        simp [gin.Context.AbortWithStatusJSON, hw, gin.Request.Context] at *
        exact hctx
      | ok claims =>
        rw [Authenticate_valid m next c1 traceId s1 t claims h1 hp1 hlow hv,
          Authenticate_valid m next c2 traceId s2 t claims h2 hp2 hlow2 hv]
        refine ⟨rfl, fun _ _ => ⟨by simp [Outcome.validateCalls], by simp [Outcome.validateCalls]⟩,
          ?_, rfl, fun hn => ?_⟩
        · simp [Outcome.nextCalls, gin.Request.WithContext, gin.Request.Context, hw, hab] at *
          rw [hctx]
        · simp [Outcome.nextCalls] at hn
    · have hlow2 : ¬ strings.ToLower s2 = "bearer" := by rw [← hcase]; exact hlow
      have hb1 : (strings.Split (c1.Request.Header.Get "Authorization") ' ').length ≠ 2 ∨
          strings.ToLower ((strings.Split (c1.Request.Header.Get "Authorization") ' ').getD 0 "")
            ≠ "bearer" := by
        right; rw [hp1]; simpa using hlow
      have hb2 : (strings.Split (c2.Request.Header.Get "Authorization") ' ').length ≠ 2 ∨
          strings.ToLower ((strings.Split (c2.Request.Header.Get "Authorization") ' ').getD 0 "")
            ≠ "bearer" := by
        right; rw [hp2]; simpa using hlow2
      rw [Authenticate_malformed m next c1 traceId h1 hb1,
        Authenticate_malformed m next c2 traceId h2 hb2]
      refine ⟨rfl, fun _ hl => absurd hl hlow, rfl, rfl, fun _ => ?_⟩
      simp [gin.Context.AbortWithStatusJSON, hw, gin.Request.Context] at *
      exact hctx

theorem Authenticate_scheme_case_insensitive_witness :
    strings.ToLower "bearer" = strings.ToLower "BeArEr" ∧
    (middlewares.Mid.Authenticate sample.mid sample.done
      (sample.request sample.traced "bearer good")).validateCalls = ["good"] ∧
    (middlewares.Mid.Authenticate sample.mid sample.done
      (sample.request sample.traced "BeArEr good")).validateCalls = ["good"] :=
  have main := Authenticate_scheme_case_insensitive sample.mid sample.done
    (sample.request sample.traced "bearer good") (sample.request sample.traced "BeArEr good")
    "bearer" "BeArEr" "good" (by decide) (by decide) (by decide) (by decide) (by decide)
    (by decide) rfl rfl rfl
  ⟨by decide, main.2.1 ⟨"trace-1", by decide⟩ (by decide)⟩

/-- C4: when the context holds no string under `TraceIdKey`, the
authorization stage writes one response of status 500 with the Internal
Server Error text and aborts, whatever the Authorization header is and
whatever `ValidateToken` would answer; it calls neither `ValidateToken` nor
`next`. -/
theorem Authenticate_no_trace_id_500 (m : middlewares.Mid) (next : gin.HandlerFunc)
    (c : gin.Context)
    (hno : ∀ traceId, context.Value c.Request.Context middlewares.TraceIdKey
      ≠ some (context.Val.str traceId)) :
    (middlewares.Mid.Authenticate m next c).c.Writer.written = c.Writer.written ++
      [(500, gin.Body.H [("error", "Internal Server Error")])] ∧
    (c.Writer.written = [] → (middlewares.Mid.Authenticate m next c).c.Writer.Status = 500) ∧
    (middlewares.Mid.Authenticate m next c).c.aborted = true ∧
    (middlewares.Mid.Authenticate m next c).validateCalls = [] ∧
    (middlewares.Mid.Authenticate m next c).nextCalls = [] := by
  have h : context.assertString (context.Value c.Request.Context middlewares.TraceIdKey)
      = none := by
    cases hs : context.assertString (context.Value c.Request.Context middlewares.TraceIdKey) with
    | none => rfl
    | some s => exact absurd ((assertString_eq_some _ _).mp hs) (hno s)
  rw [Authenticate_no_trace m next c h]
  refine ⟨rfl, ?_, rfl, by simp [Outcome.validateCalls], by simp [Outcome.nextCalls]⟩
  intro hw
  simp [gin.Context.AbortWithStatusJSON, gin.ResponseWriter.writeJSON,
    gin.ResponseWriter.Status, hw]

theorem Authenticate_no_trace_id_500_witness :
    sample.tokens.ValidateToken "good" = .ok sample.claims42 ∧
    (middlewares.Mid.Authenticate sample.mid sample.done
      (sample.request [] "Bearer good")).c.Writer.Status = 500 ∧
    (middlewares.Mid.Authenticate sample.mid sample.done
      (sample.request [] "Bearer good")).validateCalls = [] ∧
    (middlewares.Mid.Authenticate sample.mid sample.done
      (sample.request [] "Bearer good")).nextCalls = [] :=
  have main := Authenticate_no_trace_id_500 sample.mid sample.done
    (sample.request [] "Bearer good")
    (by intro t; simp [context.Value, sample.request, gin.Request.Context])
  ⟨rfl, main.2.1 rfl, main.2.2.2.1, main.2.2.2.2⟩

/-- C5: token failures are uniform to the client. For any two requests with a
trace id and a well-formed header whose tokens `ValidateToken` rejects, with
whatever errors, the stage writes the same response, status 401 with the
fixed body `error: Unauthorized`; the response does not depend on the error
or on the token. -/
theorem Authenticate_token_failure_uniform (m1 m2 : middlewares.Mid) (n1 n2 : gin.HandlerFunc)
    (c1 c2 : gin.Context) (t1 t2 p0 p1 q0 q1 : String) (e1 e2 : GoError)
    (htr1 : context.Value c1.Request.Context middlewares.TraceIdKey = some (context.Val.str t1))
    (htr2 : context.Value c2.Request.Context middlewares.TraceIdKey = some (context.Val.str t2))
    (hp : strings.Split (c1.Request.Header.Get "Authorization") ' ' = [p0, p1])
    (hq : strings.Split (c2.Request.Header.Get "Authorization") ' ' = [q0, q1])
    (hp0 : strings.ToLower p0 = "bearer") (hq0 : strings.ToLower q0 = "bearer")
    (hv1 : m1.a.ValidateToken p1 = .error e1) (hv2 : m2.a.ValidateToken q1 = .error e2)
    (hw : c1.Writer = c2.Writer) :
    (middlewares.Mid.Authenticate m1 n1 c1).c.Writer
      = (middlewares.Mid.Authenticate m2 n2 c2).c.Writer ∧
    (middlewares.Mid.Authenticate m1 n1 c1).c.Writer.written
      = c1.Writer.written ++ [(401, gin.Body.H [("error", "Unauthorized")])] ∧
    (c1.Writer.written = [] → (middlewares.Mid.Authenticate m1 n1 c1).c.Writer.Status = 401) ∧
    (middlewares.Mid.Authenticate m1 n1 c1).c.aborted = true ∧
    (middlewares.Mid.Authenticate m2 n2 c2).c.aborted = true := by
  rw [Authenticate_invalid m1 n1 c1 t1 p0 p1 e1 ((assertString_eq_some _ _).mpr htr1) hp hp0 hv1,
    Authenticate_invalid m2 n2 c2 t2 q0 q1 e2 ((assertString_eq_some _ _).mpr htr2) hq hq0 hv2]
  refine ⟨?_, rfl, ?_, rfl, rfl⟩
  · simp [gin.Context.AbortWithStatusJSON, hw]
  · intro hfresh
    simp [gin.Context.AbortWithStatusJSON, gin.ResponseWriter.writeJSON,
      gin.ResponseWriter.Status, hfresh]

theorem Authenticate_token_failure_uniform_witness :
    sample.tokens.ValidateToken "old" = .error "token is expired" ∧
    sample.tokens.ValidateToken "junk" = .error "token is malformed" ∧
    (middlewares.Mid.Authenticate sample.mid sample.done
        (sample.request sample.traced "Bearer old")).c.Writer
      = (middlewares.Mid.Authenticate sample.mid sample.done
        (sample.request sample.traced "bearer junk")).c.Writer ∧
    (middlewares.Mid.Authenticate sample.mid sample.done
        (sample.request sample.traced "Bearer old")).c.Writer.written
      = [(401, gin.Body.H [("error", "Unauthorized")])] :=
  have main := Authenticate_token_failure_uniform sample.mid sample.mid sample.done sample.done
    (sample.request sample.traced "Bearer old") (sample.request sample.traced "bearer junk")
    "trace-1" "trace-1" "Bearer" "old" "bearer" "junk" "token is expired" "token is malformed"
    (by decide) (by decide) (by decide) (by decide) (by decide) (by decide) rfl rfl rfl
  ⟨rfl, rfl, main.1, main.2.1⟩

/-- C6: on the success path the context handed to `next` holds under
`auth.Key` exactly the claims `ValidateToken` returned, every other key,
the trace id under `TraceIdKey` among them, reads as in the incoming
context, and the stage writes no response of its own: `next` gets the
response writer and abort flag unchanged and the stage returns what `next`
leaves. -/
theorem Authenticate_success_frame (m : middlewares.Mid) (next : gin.HandlerFunc)
    (c : gin.Context) (traceId p0 p1 : String) (claims : jwt.RegisteredClaims)
    (htrace : context.Value c.Request.Context middlewares.TraceIdKey
      = some (context.Val.str traceId))
    (hsplit : strings.Split (c.Request.Header.Get "Authorization") ' ' = [p0, p1])
    (hlow : strings.ToLower p0 = "bearer")
    (hv : m.a.ValidateToken p1 = .ok claims) :
    ∃ c1, (middlewares.Mid.Authenticate m next c).nextCalls = [c1] ∧
      (middlewares.Mid.Authenticate m next c).c = next c1 ∧
      context.Value c1.Request.Context auth.Key = some (context.Val.claims claims) ∧
      (∀ k, k ≠ auth.Key →
        context.Value c1.Request.Context k = context.Value c.Request.Context k) ∧
      context.Value c1.Request.Context middlewares.TraceIdKey
        = some (context.Val.str traceId) ∧
      c1.Writer = c.Writer ∧ c1.aborted = c.aborted ∧
      c1.Request.Header = c.Request.Header ∧ c1.Request.Body = c.Request.Body := by
  have hframe : ∀ k, k ≠ auth.Key →
      context.Value (context.WithValue c.Request.Context auth.Key (context.Val.claims claims)) k
        = context.Value c.Request.Context k := by
    intro k hk
    have hk2 : (k == auth.Key) = false := by simpa using hk
    simp [context.Value, context.WithValue, List.lookup_cons, hk2]
  rw [Authenticate_valid m next c traceId p0 p1 claims
    ((assertString_eq_some _ _).mpr htrace) hsplit hlow hv]
  refine ⟨_, by simp [Outcome.nextCalls], rfl, ?_, ?_, ?_, rfl, rfl, rfl, rfl⟩
  · simp [gin.Request.WithContext, gin.Request.Context, context.Value, context.WithValue]
  · intro k hk
    exact hframe k hk
  · have := hframe middlewares.TraceIdKey (by decide)
    simp only [gin.Request.WithContext, gin.Request.Context] at this ⊢
    rw [this]
    exact htrace

theorem Authenticate_success_frame_witness :
    (middlewares.Mid.Authenticate sample.mid sample.done
      (sample.request sample.traced "Bearer good")).c.Writer.written
        = [(200, gin.Body.H [])] ∧
    ∃ c1, (middlewares.Mid.Authenticate sample.mid sample.done
        (sample.request sample.traced "Bearer good")).nextCalls = [c1] ∧
      context.Value c1.Request.Context auth.Key = some (context.Val.claims sample.claims42) ∧
      context.Value c1.Request.Context middlewares.TraceIdKey
        = some (context.Val.str "trace-1") ∧
      c1.Writer = (sample.request sample.traced "Bearer good").Writer :=
  have main := Authenticate_success_frame sample.mid sample.done
    (sample.request sample.traced "Bearer good") "trace-1" "Bearer" "good" sample.claims42
    (by decide) (by decide) (by decide) rfl
  ⟨by decide, main.elim fun c1 h => ⟨c1, h.1, h.2.2.1, h.2.2.2.2.1, h.2.2.2.2.2.1⟩⟩

/-! ## Claims on the tracing stage -/

/-- C7: the completion line of the tracing stage carries the status the
response writer had when the stage was entered, not the status the response
has after the next stage returned: when the next stage is the authorization
stage and rejects the request with 401, the completion line still says 200. -/
theorem Log_completion_status_is_entry_status (m : middlewares.Mid) (traceId : String)
    (next : gin.HandlerFunc) (c : gin.Context) :
    (∃ started completed,
      (middlewares.Mid.Log m traceId next c).logLines = [started, completed] ∧
      completed.msg = "Request processing completed" ∧
      completed.fields.lookup "status Code" = some (zerolog.Field.int c.Writer.Status)) ∧
    (middlewares.Mid.Log sample.mid "trace-1"
        (fun x => (middlewares.Mid.Authenticate sample.mid sample.done x).c)
        (sample.request [] "Token abc")).c.Writer.Status = 401 ∧
    (middlewares.Mid.Log sample.mid "trace-1"
        (fun x => (middlewares.Mid.Authenticate sample.mid sample.done x).c)
        (sample.request [] "Token abc")).logLines.map
          (fun l => (l.msg, l.fields.lookup "status Code"))
      = [("request started", none),
         ("Request processing completed", some (zerolog.Field.int 200))] := by
  refine ⟨⟨_, _, rfl, rfl, ?_⟩, by decide, by decide⟩
  simp [List.lookup]

/-- C8: the tracing stage, for the trace id `t` it generated, runs the next
stage once with a context in which `TraceIdKey` reads `t`, and emits exactly
two log lines, both carrying `t`: the `request started` line before the next
stage runs and the completion line after it has returned. -/
theorem Log_two_lines_one_trace_id (m : middlewares.Mid) (t : String)
    (next : gin.HandlerFunc) (c : gin.Context) :
    ∃ c1 started completed,
      (middlewares.Mid.Log m t next c).events
        = [Event.log started, Event.next c1, Event.log completed] ∧
      (middlewares.Mid.Log m t next c).logLines = [started, completed] ∧
      (middlewares.Mid.Log m t next c).nextCalls = [c1] ∧
      (middlewares.Mid.Log m t next c).c = next c1 ∧
      context.Value c1.Request.Context middlewares.TraceIdKey = some (context.Val.str t) ∧
      context.assertString (context.Value c1.Request.Context middlewares.TraceIdKey) = some t ∧
      started.msg = "request started" ∧
      completed.msg = "Request processing completed" ∧
      started.fields.lookup "Trace Id" = some (zerolog.Field.str t) ∧
      completed.fields.lookup "Trace Id" = some (zerolog.Field.str t) := by
  refine ⟨_, _, _, rfl, rfl, rfl, rfl, ?_, ?_, rfl, rfl, ?_, ?_⟩
  · simp [gin.Request.WithContext, gin.Request.Context, context.Value, context.WithValue]
  · simp [gin.Request.WithContext, gin.Request.Context, context.Value, context.WithValue,
      context.assertString]
  · simp [List.lookup]
  · simp [List.lookup]

/-! ## Claims on the handlers -/

/-- C9: `AddInventory` and `ViewInventory` fail closed. When the context
holds a trace id but no `jwt.RegisteredClaims` value under `auth.Key`, each
writes one response of status 401 and aborts; the only thing it does besides
is to log `login first`: it makes no call to the Store and does not read the
body. -/
theorem inventory_handlers_fail_closed (h : handlers.handler) (lib : handlers.Lib)
    (c : gin.Context) (traceId : String)
    (htrace : context.Value c.Request.Context middlewares.TraceIdKey
      = some (context.Val.str traceId))
    (hno : ∀ cl, context.Value c.Request.Context auth.Key ≠ some (context.Val.claims cl)) :
    ((handlers.handler.AddInventory h lib c).c.Writer.written
        = c.Writer.written ++ [(401, gin.Body.H [("error", "Unauthorized")])] ∧
     (c.Writer.written = [] → (handlers.handler.AddInventory h lib c).c.Writer.Status = 401) ∧
     (handlers.handler.AddInventory h lib c).c.aborted = true ∧
     (handlers.handler.AddInventory h lib c).storeCalls = [] ∧
     (handlers.handler.AddInventory h lib c).events
        = [Event.log ⟨"error", [("Trace Id", .str traceId)], "login first"⟩]) ∧
    ((handlers.handler.ViewInventory h c).c.Writer.written
        = c.Writer.written ++ [(401, gin.Body.H [("error", "Unauthorized")])] ∧
     (c.Writer.written = [] → (handlers.handler.ViewInventory h c).c.Writer.Status = 401) ∧
     (handlers.handler.ViewInventory h c).c.aborted = true ∧
     (handlers.handler.ViewInventory h c).storeCalls = [] ∧
     (handlers.handler.ViewInventory h c).events
        = [Event.log ⟨"error", [("Trace Id", .str traceId)], "login first"⟩]) := by
  have ht := (assertString_eq_some _ _).mpr htrace
  have hc : context.assertClaims (context.Value c.Request.Context auth.Key) = none := by
    cases hs : context.assertClaims (context.Value c.Request.Context auth.Key) with
    | none => rfl
    | some cl => exact absurd ((assertClaims_eq_some _ _).mp hs) (hno cl)
  have e1 : handlers.handler.AddInventory h lib c =
      { events := [Event.log ⟨"error", [("Trace Id", .str traceId)], "login first"⟩],
        c := c.AbortWithStatusJSON 401 (gin.Body.H [("error", "Unauthorized")]) } := by
    unfold handlers.handler.AddInventory
    simp only [ht, hc]
    rfl
  have e2 : handlers.handler.ViewInventory h c =
      { events := [Event.log ⟨"error", [("Trace Id", .str traceId)], "login first"⟩],
        c := c.AbortWithStatusJSON 401 (gin.Body.H [("error", "Unauthorized")]) } := by
    unfold handlers.handler.ViewInventory
    simp only [ht, hc]
    rfl
  rw [e1, e2]
  refine ⟨⟨rfl, ?_, rfl, by simp [Outcome.storeCalls], rfl⟩,
    ⟨rfl, ?_, rfl, by simp [Outcome.storeCalls], rfl⟩⟩ <;>
  · intro hw
    simp [gin.Context.AbortWithStatusJSON, gin.ResponseWriter.writeJSON,
      gin.ResponseWriter.Status, hw]

theorem inventory_handlers_fail_closed_witness :
    context.Value (sample.post sample.traced "shirt").Request.Context auth.Key = none ∧
    (handlers.handler.AddInventory sample.h sample.lib
      (sample.post sample.traced "shirt")).c.Writer.Status = 401 ∧
    (handlers.handler.AddInventory sample.h sample.lib
      (sample.post sample.traced "shirt")).storeCalls = [] ∧
    (handlers.handler.ViewInventory sample.h (sample.post sample.traced "shirt")).c.Writer.Status
      = 401 ∧
    (handlers.handler.ViewInventory sample.h (sample.post sample.traced "shirt")).storeCalls
      = [] :=
  have main := inventory_handlers_fail_closed sample.h sample.lib
    (sample.post sample.traced "shirt") "trace-1" (by decide)
    (by
      intro cl
      have e : context.Value (sample.post sample.traced "shirt").Request.Context auth.Key
          = none := by decide
      rw [e]
      simp)
  ⟨by decide, main.1.2.1 rfl, main.1.2.2.2.1, main.2.2.1 rfl, main.2.2.2.2.1⟩

/-- C10: the service-app `Login` handler, on a request with a trace id whose
body decodes and validates, writes exactly one response: status 401 without
calling `GenerateToken` when `Store.Authenticate` fails; status 200 with the
body `token: s` when `Authenticate` returns claims and `GenerateToken` on
them returns `s`; status 500 when `GenerateToken` fails. -/
theorem Login_responses (h : handlers.handler) (lib : handlers.Lib) (c : gin.Context)
    (traceId : String) (login : handlers.LoginData)
    (htrace : context.Value c.Request.Context middlewares.TraceIdKey
      = some (context.Val.str traceId))
    (hdec : lib.decodeLogin c.Request.Body = .ok login)
    (hval : lib.validateLogin login = none) :
    (∀ err, h.s.Authenticate c.Request.Context login.Email login.Password = .error err →
      (handlers.handler.Login h lib c).c.Writer.written
        = c.Writer.written ++ [(401, gin.Body.H [("msg", "login failed")])] ∧
      (c.Writer.written = [] → (handlers.handler.Login h lib c).c.Writer.Status = 401) ∧
      (handlers.handler.Login h lib c).generateCalls = []) ∧
    (∀ claims s, h.s.Authenticate c.Request.Context login.Email login.Password = .ok claims →
      h.a.GenerateToken claims = .ok s →
      (handlers.handler.Login h lib c).c.Writer.written
        = c.Writer.written ++ [(200, gin.Body.token s)] ∧
      (c.Writer.written = [] → (handlers.handler.Login h lib c).c.Writer.Status = 200) ∧
      (handlers.handler.Login h lib c).generateCalls = [claims]) ∧
    (∀ claims err, h.s.Authenticate c.Request.Context login.Email login.Password = .ok claims →
      h.a.GenerateToken claims = .error err →
      (handlers.handler.Login h lib c).c.Writer.written
        = c.Writer.written ++ [(500, gin.Body.H [("msg", "Internal Server Error")])] ∧
      (c.Writer.written = [] → (handlers.handler.Login h lib c).c.Writer.Status = 500) ∧
      (handlers.handler.Login h lib c).generateCalls = [claims]) := by
  have ht := (assertString_eq_some _ _).mpr htrace
  refine ⟨?_, ?_, ?_⟩
  · intro err ha
    have e : handlers.handler.Login h lib c =
        { events := [Event.decodeBody c.Request.Body,
            Event.Authenticate login.Email login.Password,
            Event.log ⟨"error", [("error", .str err), ("Trace Id", .str traceId)], ""⟩],
          c := c.AbortWithStatusJSON 401 (gin.Body.H [("msg", "login failed")]) } := by
      unfold handlers.handler.Login
      simp only [ht, hdec, hval, ha]
      rfl
    rw [e]
    refine ⟨rfl, ?_, by simp [Outcome.generateCalls]⟩
    intro hw
    simp [gin.Context.AbortWithStatusJSON, gin.ResponseWriter.writeJSON,
      gin.ResponseWriter.Status, hw]
  · intro claims s ha hg
    have e : handlers.handler.Login h lib c =
        { events := [Event.decodeBody c.Request.Body,
            Event.Authenticate login.Email login.Password, Event.GenerateToken claims],
          c := c.JSON 200 (gin.Body.token s) } := by
      unfold handlers.handler.Login
      simp only [ht, hdec, hval, ha, hg]
      rfl
    rw [e]
    refine ⟨rfl, ?_, by simp [Outcome.generateCalls]⟩
    intro hw
    simp [gin.Context.JSON, gin.ResponseWriter.writeJSON, gin.ResponseWriter.Status, hw]
  · intro claims err ha hg
    have e : handlers.handler.Login h lib c =
        { events := [Event.decodeBody c.Request.Body,
            Event.Authenticate login.Email login.Password, Event.GenerateToken claims,
            Event.log ⟨"error", [("error", .str err)], "generating token"⟩],
          c := c.AbortWithStatusJSON 500 (gin.Body.H [("msg", "Internal Server Error")]) } := by
      unfold handlers.handler.Login
      simp only [ht, hdec, hval, ha, hg]
      rfl
    rw [e]
    refine ⟨rfl, ?_, by simp [Outcome.generateCalls]⟩
    intro hw
    simp [gin.Context.AbortWithStatusJSON, gin.ResponseWriter.writeJSON,
      gin.ResponseWriter.Status, hw]

theorem Login_responses_witness :
    (handlers.handler.Login sample.h sample.lib (sample.post sample.traced "ann")).c.Writer.written
      = [(200, gin.Body.token "good")] ∧
    (handlers.handler.Login sample.h sample.lib (sample.post sample.traced "ann")).generateCalls
      = [sample.claims42] :=
  have main := (Login_responses sample.h sample.lib (sample.post sample.traced "ann") "trace-1"
    ⟨"ann@example.com", "secret"⟩ (by decide) rfl rfl).2.1 sample.claims42 "good" rfl rfl
  ⟨main.1, main.2.2⟩

/-- Without a string under `TraceIdKey` the type assertion `.(string)` of the
handlers and of the authorization stage fails. -/
theorem assertString_none_of_no_string (ctx : context.Context) (k : context.Key)
    (hno : ∀ t, context.Value ctx k ≠ some (context.Val.str t)) :
    context.assertString (context.Value ctx k) = none := by
  cases hs : context.assertString (context.Value ctx k) with
  | none => rfl
  | some s => exact absurd ((assertString_eq_some _ _).mp hs) (hno s)

/-- C11: each of the four service-app handlers, on a request whose context
holds no string under `TraceIdKey`, writes exactly one response, of status
500, and aborts; the only other thing it does is to log that the trace id is
missing: it does not read the body and calls neither the Store nor
`GenerateToken`. -/
theorem handlers_without_trace_id_500 (h : handlers.handler) (lib : handlers.Lib)
    (c : gin.Context)
    (hno : ∀ t, context.Value c.Request.Context middlewares.TraceIdKey
      ≠ some (context.Val.str t)) :
    ∀ o ∈ [handlers.handler.Signup h lib c, handlers.handler.Login h lib c,
        handlers.handler.AddInventory h lib c, handlers.handler.ViewInventory h c],
      (∃ obj, o.c.Writer.written = c.Writer.written ++ [(500, obj)]) ∧
      (c.Writer.written = [] → o.c.Writer.Status = 500) ∧
      o.c.aborted = true ∧
      o.events = [Event.log ⟨"error", [], "traceId missing from context"⟩] ∧
      o.bodyReads = [] ∧ o.storeCalls = [] ∧ o.generateCalls = [] := by
  have ht := assertString_none_of_no_string _ _ hno
  have e1 : handlers.handler.Signup h lib c =
      { events := [Event.log ⟨"error", [], "traceId missing from context"⟩],
        c := c.AbortWithStatusJSON 500 (gin.Body.H [("error", "traceId missing from context")]) } := by
    unfold handlers.handler.Signup
    simp only [ht]
    rfl
  have e2 : handlers.handler.Login h lib c =
      { events := [Event.log ⟨"error", [], "traceId missing from context"⟩],
        c := c.AbortWithStatusJSON 500 (gin.Body.H [("msg", "Internal Server Error")]) } := by
    unfold handlers.handler.Login
    simp only [ht]
    rfl
  have e3 : handlers.handler.AddInventory h lib c =
      { events := [Event.log ⟨"error", [], "traceId missing from context"⟩],
        c := c.AbortWithStatusJSON 500 (gin.Body.H [("msg", "Internal Server Error")]) } := by
    unfold handlers.handler.AddInventory
    simp only [ht]
    rfl
  have e4 : handlers.handler.ViewInventory h c =
      { events := [Event.log ⟨"error", [], "traceId missing from context"⟩],
        c := c.AbortWithStatusJSON 500 (gin.Body.H [("msg", "Internal Server Error")]) } := by
    unfold handlers.handler.ViewInventory
    simp only [ht]
    rfl
  have key : ∀ obj, ∀ o : Outcome,
      o = { events := [Event.log ⟨"error", [], "traceId missing from context"⟩],
            c := c.AbortWithStatusJSON 500 obj } →
      (∃ obj, o.c.Writer.written = c.Writer.written ++ [(500, obj)]) ∧
      (c.Writer.written = [] → o.c.Writer.Status = 500) ∧
      o.c.aborted = true ∧
      o.events = [Event.log ⟨"error", [], "traceId missing from context"⟩] ∧
      o.bodyReads = [] ∧ o.storeCalls = [] ∧ o.generateCalls = [] := by
    intro obj o ho
    subst ho
    refine ⟨⟨obj, rfl⟩, ?_, rfl, rfl, by simp [Outcome.bodyReads], by simp [Outcome.storeCalls],
      by simp [Outcome.generateCalls]⟩
    intro hw
    simp [gin.Context.AbortWithStatusJSON, gin.ResponseWriter.writeJSON,
      gin.ResponseWriter.Status, hw]
  intro o ho
  simp only [List.mem_cons, List.mem_singleton, List.not_mem_nil, or_false] at ho
  rcases ho with rfl | rfl | rfl | rfl
  · exact key _ _ e1
  · exact key _ _ e2
  · exact key _ _ e3
  · exact key _ _ e4

theorem handlers_without_trace_id_500_witness :
    (handlers.handler.Login sample.h sample.lib (sample.post [] "ann")).c.Writer.written
      = [(500, gin.Body.H [("msg", "Internal Server Error")])] ∧
    (handlers.handler.Login sample.h sample.lib (sample.post [] "ann")).bodyReads = [] ∧
    (handlers.handler.Login sample.h sample.lib (sample.post [] "ann")).storeCalls = [] :=
  have main := handlers_without_trace_id_500 sample.h sample.lib (sample.post [] "ann")
    (by intro t; simp [context.Value, sample.post, gin.Request.Context])
    (handlers.handler.Login sample.h sample.lib (sample.post [] "ann")) (by simp)
  ⟨by decide, main.2.2.2.2.1, main.2.2.2.2.2.1⟩

/-! ## The argument of `ValidateToken` -/

theorem splitChars_one_inv (sep : Char) (l b : List Char)
    (h : strings.splitChars sep l = [b]) : l = b ∧ sep ∉ b := by
  have hlen := splitChars_length sep l
  rw [h] at hlen
  have hc : l.count sep = 0 := by simpa using hlen.symm
  have hmem : sep ∉ l := List.count_eq_zero.mp hc
  rw [splitChars_of_not_mem sep l hmem] at h
  simp only [List.cons.injEq, and_true] at h
  exact ⟨h, h ▸ hmem⟩

theorem splitChars_two_inv (sep : Char) (l a b : List Char)
    (h : strings.splitChars sep l = [a, b]) : l = a ++ sep :: b ∧ sep ∉ a ∧ sep ∉ b := by
  induction l generalizing a with
  | nil => simp [strings.splitChars] at h
  | cons x l ih =>
    unfold strings.splitChars at h
    by_cases hx : x = sep
    · rw [if_pos hx] at h
      simp only [List.cons.injEq] at h
      obtain ⟨ha, hb⟩ := h
      obtain ⟨hl, hnb⟩ := splitChars_one_inv sep l b hb
      subst ha
      subst hx
      exact ⟨by simp [hl], by simp, hnb⟩
    · rw [if_neg hx] at h
      cases hs : strings.splitChars sep l with
      | nil => exact absurd hs (splitChars_ne_nil sep l)
      | cons p ps =>
        rw [hs] at h
        simp only [strings.consHead, List.cons.injEq] at h
        obtain ⟨ha, hps⟩ := h
        subst hps
        obtain ⟨hl, hnp, hnb⟩ := ih p hs
        subst ha
        refine ⟨by simp [hl], ?_, hnb⟩
        intro hmem
        rcases List.mem_cons.mp hmem with e | e
        · exact hx e.symm
        · exact hnp e

/-- A header that splits on a space into two parts is those two parts joined
by one space, and neither part holds a space. -/
theorem Split_two_inv (h p0 p1 : String) (hs : strings.Split h ' ' = [p0, p1]) :
    h = p0 ++ " " ++ p1 ∧ ' ' ∉ p0.toList ∧ ' ' ∉ p1.toList := by
  unfold strings.Split at hs
  cases hsp : strings.splitChars ' ' h.toList with
  | nil => exact absurd hsp (splitChars_ne_nil _ _)
  | cons a rest =>
    cases rest with
    | nil => rw [hsp] at hs; simp at hs
    | cons b rest2 =>
      cases rest2 with
      | cons x y => rw [hsp] at hs; simp at hs
      | nil =>
        rw [hsp] at hs
        simp only [List.map_cons, List.map_nil, List.cons.injEq, and_true] at hs
        obtain ⟨h0, h1⟩ := hs
        obtain ⟨hl, hna, hnb⟩ := splitChars_two_inv ' ' h.toList a b hsp
        subst h0
        subst h1
        refine ⟨?_, hna, hnb⟩
        apply String.ext
        simpa [String.toList] using hl

/-- C15: the authorization stage validates the empty token. For the header
`Bearer ` (the scheme followed by one space) `ValidateToken` is called with
the empty string; the 401 is written after that call, not before. -/
theorem Authenticate_validates_empty_token :
    (sample.request sample.traced "Bearer ").Request.Header.Get "Authorization" = "Bearer " ∧
    (middlewares.Mid.Authenticate sample.mid sample.done
      (sample.request sample.traced "Bearer ")).validateCalls = [""] ∧
    ¬ (∀ t ∈ (middlewares.Mid.Authenticate sample.mid sample.done
      (sample.request sample.traced "Bearer ")).validateCalls, t ≠ "") := by
  refine ⟨by decide, by decide, ?_⟩
  intro hall
  exact hall "" (by decide) rfl

/-- C15: whenever the authorization stage calls `ValidateToken` with `t`, the
Authorization header is `s`, one space, `t`, where `s` lower-cases to
`bearer` and neither `s` nor `t` holds a space; that call is the only one.
The token `t` may be empty. -/
theorem Authenticate_validate_argument (m : middlewares.Mid) (next : gin.HandlerFunc)
    (c : gin.Context) (t : String)
    (hcall : t ∈ (middlewares.Mid.Authenticate m next c).validateCalls) :
    (∃ s, c.Request.Header.Get "Authorization" = s ++ " " ++ t ∧
      strings.ToLower s = "bearer" ∧ ' ' ∉ s.toList) ∧
    ' ' ∉ t.toList ∧
    (middlewares.Mid.Authenticate m next c).validateCalls = [t] := by
  rcases Authenticate_exits m c with
    h | ⟨traceId, h, hbad | ⟨p0, p1, hp, hlow, ⟨err, hv⟩ | ⟨claims, hv⟩⟩⟩
  · rw [Authenticate_no_trace m next c h] at hcall
    simp [Outcome.validateCalls] at hcall
  · rw [Authenticate_malformed m next c traceId h hbad] at hcall
    simp [Outcome.validateCalls] at hcall
  · rw [Authenticate_invalid m next c traceId p0 p1 err h hp hlow hv] at hcall ⊢
    simp only [Outcome.validateCalls, List.filterMap_cons, List.filterMap_nil,
      List.mem_singleton] at hcall ⊢
    subst hcall
    obtain ⟨e, h0, h1⟩ := Split_two_inv _ p0 t hp
    exact ⟨⟨p0, e, hlow, h0⟩, h1, rfl⟩
  · rw [Authenticate_valid m next c traceId p0 p1 claims h hp hlow hv] at hcall ⊢
    simp only [Outcome.validateCalls, List.filterMap_cons, List.filterMap_nil,
      List.mem_singleton] at hcall ⊢
    subst hcall
    obtain ⟨e, h0, h1⟩ := Split_two_inv _ p0 t hp
    exact ⟨⟨p0, e, hlow, h0⟩, h1, rfl⟩

theorem Authenticate_validate_argument_witness :
    "good" ∈ (middlewares.Mid.Authenticate sample.mid sample.done
      (sample.request sample.traced "BEARER good")).validateCalls ∧
    ∃ s, (sample.request sample.traced "BEARER good").Request.Header.Get "Authorization"
        = s ++ " " ++ "good" ∧ strings.ToLower s = "bearer" ∧ ' ' ∉ s.toList :=
  ⟨by decide, (Authenticate_validate_argument sample.mid sample.done
    (sample.request sample.traced "BEARER good") "good" (by decide)).1⟩

/-! ## Claims on the store -/

theorem digitChar_digit (d : Nat) (hd : d < 10) :
    ('0' ≤ strconv.digitChar d ∧ strconv.digitChar d ≤ '9') ∧
    (strconv.digitChar d).toNat - '0'.toNat = d := by
  interval_cases d <;> decide

theorem formatBits_ne_nil (fuel u : Nat) (acc : List Char) (hacc : acc ≠ [] ∨ 0 < fuel) :
    strconv.formatBits fuel u acc ≠ [] := by
  induction fuel generalizing u acc with
  | zero =>
    rcases hacc with h | h
    · simpa [strconv.formatBits] using h
    · exact absurd h (by decide)
  | succ n ih =>
    unfold strconv.formatBits
    split
    · simp
    · exact ih _ _ (Or.inl (by simp))

theorem parseUintLoop_cons (ch : Char) (rest : List Char) (n : Nat) :
    strconv.parseUintLoop (ch :: rest) n =
      if '0' ≤ ch ∧ ch ≤ '9' then
        if n ≥ (2 ^ 64 - 1) / 10 + 1 then .error "value out of range"
        else if n * 10 + (ch.toNat - '0'.toNat) > 2 ^ 64 - 1 then .error "value out of range"
        else strconv.parseUintLoop rest (n * 10 + (ch.toNat - '0'.toNat))
      else .error "invalid syntax" := by
  rw [strconv.parseUintLoop]

/-- Parsing what the digit loop wrote gives the number back. -/
theorem parseUintLoop_formatBits (fuel u : Nat) (acc : List Char)
    (hu : u < 10 ^ fuel) (h64 : u < 2 ^ 64) :
    strconv.parseUintLoop (strconv.formatBits fuel u acc) 0 = strconv.parseUintLoop acc u := by
  induction fuel generalizing u acc with
  | zero =>
    have h0 : u = 0 := by simpa using hu
    subst h0
    rfl
  | succ n ih =>
    unfold strconv.formatBits
    by_cases h10 : u < 10
    · rw [if_pos h10]
      obtain ⟨hd, hv⟩ := digitChar_digit u h10
      rw [parseUintLoop_cons, if_pos hd, if_neg (by norm_num)]
      simp only [hv, Nat.zero_mul, Nat.zero_add]
      rw [if_neg (by omega)]
    · rw [if_neg h10]
      have hlt : u / 10 < 10 ^ n := by
        rw [Nat.div_lt_iff_lt_mul (by norm_num)]
        rw [pow_succ] at hu
        exact hu
      rw [ih (u / 10) _ hlt (by omega)]
      obtain ⟨hd, hv⟩ := digitChar_digit (u % 10) (Nat.mod_lt _ (by norm_num))
      rw [parseUintLoop_cons, if_pos hd, if_neg (by omega)]
      simp only [hv]
      have e : u / 10 * 10 + u % 10 = u := by omega
      rw [e, if_neg (by omega)]

/-- Go `strconv.ParseUint(strconv.FormatUint(i, 10), 10, 64)` gives `i` back. -/
theorem ParseUint_FormatUint (i : Nat) (h64 : i < 2 ^ 64) :
    strconv.ParseUint (strconv.FormatUint i) = .ok i := by
  unfold strconv.ParseUint strconv.FormatUint
  have hne : (String.mk (strconv.formatBits 20 i [])).toList ≠ [] :=
    formatBits_ne_nil 20 i [] (Or.inr (by norm_num))
  rw [if_neg hne]
  have hlt : i < 10 ^ 20 := lt_of_lt_of_le h64 (by norm_num)
  have := parseUintLoop_formatBits 20 i [] hlt h64
  simpa [String.toList, strconv.parseUintLoop] using this

/-- C13: a successful `Conn.Authenticate` can return claims whose expiry is
not later than their issue time. The two dates come from two readings of
the clock; when the second reading is an hour after the first (here 1000 s
and 4600 s), both dates are second 4600. -/
theorem Conn_Authenticate_expiry_not_later :
    (models.Conn.Authenticate sample.conn sample.compare
      (1000 * time.Second) (4600 * time.Second) "ann@example.com" "secret").2 = none ∧
    ∃ exp iat,
      (models.Conn.Authenticate sample.conn sample.compare
        (1000 * time.Second) (4600 * time.Second) "ann@example.com" "secret").1.ExpiresAt
          = some exp ∧
      (models.Conn.Authenticate sample.conn sample.compare
        (1000 * time.Second) (4600 * time.Second) "ann@example.com" "secret").1.IssuedAt
          = some iat ∧
      ¬ iat < exp :=
  ⟨by decide, 4600, 4600, by decide, by decide, by decide⟩

/-- C13: the claims of a successful `Conn.Authenticate` have as `Subject` the
base-10 rendering of the stored user's ID, which `strconv.ParseUint` reads
back as that ID; their expiry is strictly later than their issue time
exactly when the second clock reading falls in a second less than 3600
after that of the first, so whenever the second reading is at most 3599 s
after the first. A failed lookup and a password mismatch return the zero
claims together with the error. -/
theorem Conn_Authenticate_claims (s : models.Conn) (compare : String → String → Option GoError)
    (now1 now2 : Int) (email password : String) :
    (∀ u, s.db.First email = .ok u → compare u.PasswordHash password = none →
      (models.Conn.Authenticate s compare now1 now2 email password).2 = none ∧
      (models.Conn.Authenticate s compare now1 now2 email password).1.Subject
        = strconv.FormatUint (u.ID % 2 ^ 64) ∧
      strconv.ParseUint (models.Conn.Authenticate s compare now1 now2 email password).1.Subject
        = .ok (u.ID % 2 ^ 64) ∧
      (u.ID < 2 ^ 64 →
        strconv.ParseUint (models.Conn.Authenticate s compare now1 now2 email password).1.Subject
          = .ok u.ID) ∧
      ∃ exp iat,
        (models.Conn.Authenticate s compare now1 now2 email password).1.ExpiresAt = some exp ∧
        (models.Conn.Authenticate s compare now1 now2 email password).1.IssuedAt = some iat ∧
        (iat < exp ↔ now2 / time.Second < now1 / time.Second + 3600) ∧
        (now2 ≤ now1 + 3599 * time.Second → iat < exp)) ∧
    (∀ err, s.db.First email = .error err →
      models.Conn.Authenticate s compare now1 now2 email password
        = (⟨"", "", [], none, none, none, ""⟩, some err)) ∧
    (∀ u err, s.db.First email = .ok u → compare u.PasswordHash password = some err →
      models.Conn.Authenticate s compare now1 now2 email password
        = (⟨"", "", [], none, none, none, ""⟩, some err)) := by
  refine ⟨?_, ?_, ?_⟩
  · intro u hu hc
    have e : models.Conn.Authenticate s compare now1 now2 email password =
        ({ Issuer := "service project",
           Subject := strconv.FormatUint (u.ID % 2 ^ 64),
           Audience := ["students"],
           ExpiresAt := jwt.NewNumericDate (now1 + time.Hour),
           NotBefore := none,
           IssuedAt := jwt.NewNumericDate now2,
           ID := "" }, none) := by
      unfold models.Conn.Authenticate
      simp only [hu, hc]
    have hmod : u.ID % 2 ^ 64 < 2 ^ 64 := Nat.mod_lt _ (by norm_num)
    rw [e]
    refine ⟨rfl, rfl, ParseUint_FormatUint _ hmod, ?_, ?_⟩
    · intro hid
      have := ParseUint_FormatUint _ hmod
      rw [Nat.mod_eq_of_lt hid] at this ⊢
      exact this
    · refine ⟨(now1 + time.Hour) / time.Second, now2 / time.Second, rfl, rfl, ?_, ?_⟩
      · simp only [time.Hour, time.Second]
        omega
      · simp only [time.Hour, time.Second]
        omega
  · intro err hu
    unfold models.Conn.Authenticate
    simp only [hu]
  · intro u err hu hc
    unfold models.Conn.Authenticate
    simp only [hu, hc]

/-! ## Claims on the cost of an inventory -/

theorem CalculateTotalCost_loop_eq_foldl (fl : models.Arith) (l : List models.Inventory)
    (t : models.Float64) :
    models.CalculateTotalCost.loop fl l t
      = l.foldl (fun acc inv => fl.mulAdd acc inv.CostPerItem inv.Quantity) t := by
  induction l generalizing t with
  | nil => rfl
  | cons a l ih => simp [models.CalculateTotalCost.loop, ih]

/-- C16: `CalculateTotalCost` returns an error exactly when the category is
empty or the slice is nil, and then the total 0; otherwise it returns no
error and the total accumulated from 0 over the elements from left to
right, each adding its `CostPerItem` times its `Quantity`, whatever the
non-empty category is. On an empty slice that is not nil the total is 0
without error. `Conn.ViewInventory` always passes a slice that is not nil
and the category `shirts`, so it fails only when the query fails. -/
theorem CalculateTotalCost_spec (fl : models.Arith)
    (inventories : Option (List models.Inventory)) (category : String) :
    ((models.CalculateTotalCost fl inventories category).2 ≠ none ↔
      (category = "" ∨ inventories = none)) ∧
    ((models.CalculateTotalCost fl inventories category).2 ≠ none →
      (models.CalculateTotalCost fl inventories category).1 = ⟨0⟩) ∧
    (∀ l, category ≠ "" →
      models.CalculateTotalCost fl (some l) category
        = (l.foldl (fun acc inv => fl.mulAdd acc inv.CostPerItem inv.Quantity) ⟨0⟩, none)) ∧
    (∀ l other, category ≠ "" → other ≠ "" →
      models.CalculateTotalCost fl (some l) category
        = models.CalculateTotalCost fl (some l) other) ∧
    (category ≠ "" → models.CalculateTotalCost fl (some []) category = (⟨0⟩, none)) ∧
    (∀ (s : models.Conn) userId rows, s.db.Find userId = .ok rows →
      models.Conn.ViewInventory s fl userId
        = (some rows,
           rows.foldl (fun acc inv => fl.mulAdd acc inv.CostPerItem inv.Quantity) ⟨0⟩, none)) ∧
    (∀ (s : models.Conn) userId err, s.db.Find userId = .error err →
      models.Conn.ViewInventory s fl userId = (none, ⟨0⟩, some err)) := by
  have hsome : ∀ (l : List models.Inventory) (cat : String), cat ≠ "" →
      models.CalculateTotalCost fl (some l) cat
        = (l.foldl (fun acc inv => fl.mulAdd acc inv.CostPerItem inv.Quantity) ⟨0⟩, none) := by
    intro l cat hcat
    unfold models.CalculateTotalCost
    rw [if_neg hcat]
    simp only [CalculateTotalCost_loop_eq_foldl]
  refine ⟨?_, ?_, fun l hc => hsome l category hc, ?_, ?_, ?_, ?_⟩
  · by_cases hc : category = ""
    · simp [models.CalculateTotalCost, hc]
    · cases inventories with
      | none => simp [models.CalculateTotalCost, hc]
      | some l => simp [hsome l category hc, hc]
  · by_cases hc : category = ""
    · simp [models.CalculateTotalCost, hc]
    · cases inventories with
      | none => simp [models.CalculateTotalCost, hc]
      | some l => simp [hsome l category hc]
  · intro l other hc ho
    rw [hsome l category hc, hsome l other ho]
  · intro hc
    rw [hsome [] category hc]
    rfl
  · intro s userId rows hf
    unfold models.Conn.ViewInventory
    simp only [hf]
    rw [hsome rows "shirts" (by decide)]
  · intro s userId err hf
    unfold models.Conn.ViewInventory
    simp only [hf]

/-! ## Claims on tokens -/

/-- A token of three segments without dots splits on the dots into them. -/
theorem Split_three_segments (h p s : String) (hh : '.' ∉ h.toList) (hp : '.' ∉ p.toList)
    (hs : '.' ∉ s.toList) : strings.Split (h ++ "." ++ p ++ "." ++ s) '.' = [h, p, s] := by
  have h1 : (h ++ "." ++ p ++ "." ++ s).toList
      = h.toList ++ '.' :: (p.toList ++ '.' :: s.toList) := by
    simp [String.toList]
  unfold strings.Split
  rw [h1, splitChars_append_sep _ _ _ hh, splitChars_append_sep _ _ _ hp,
    splitChars_of_not_mem _ _ hs]
  simp [String.toList]

/-- C12: token round trip. For claims `c` with `expiresAt` later than
`issuedAt`, the token that `GenerateToken` produces for `c` is accepted by
`ValidateToken` before `expiresAt`, with the verification key that matches
the signing key, and the claims returned are `c`. The library is taken to
encode the claims so that they decode to themselves and to write segments
without dots. -/
theorem token_round_trip (a : prog5.auth.Auth) (lib : jwt.Lib) (now : Int)
    (c : jwt.RegisteredClaims) (iat exp : Int) (token : String)
    (hiat : c.IssuedAt = some iat) (hexp : c.ExpiresAt = some exp) (hvalid : iat < exp)
    (hgen : prog5.auth.Auth.GenerateToken a lib c = (token, none))
    (hnow : now < exp)
    (hkeys : ∀ m sig, lib.Sign m a.privateKey = .ok sig → lib.Verify m sig a.publicKey = true)
    (hcodec : lib.decodeClaims (lib.encodeClaims c) = some c)
    (hhead : '.' ∉ lib.header.toList) (hseg : '.' ∉ (lib.encodeClaims c).toList)
    (hsig : ∀ m sig, lib.Sign m a.privateKey = .ok sig → '.' ∉ sig.toList) :
    ∃ claims, prog5.auth.Auth.ValidateToken a lib now token = .ok claims ∧ claims = c ∧
      claims.IssuedAt = some iat ∧ claims.ExpiresAt = some exp ∧ iat < exp := by
  refine ⟨c, ?_, rfl, hiat, hexp, hvalid⟩
  unfold prog5.auth.Auth.GenerateToken jwt.Lib.SignedString at hgen
  cases hs : lib.Sign (lib.header ++ "." ++ lib.encodeClaims c) a.privateKey with
  | error err =>
    simp only [hs] at hgen
    simp at hgen
  | ok sig =>
    simp only [hs] at hgen
    have ht : token = lib.header ++ "." ++ lib.encodeClaims c ++ "." ++ sig := by
      simpa using (congrArg Prod.fst hgen).symm
    subst ht
    unfold prog5.auth.Auth.ValidateToken
    rw [Split_three_segments _ _ _ hhead hseg (hsig _ _ hs)]
    simp only [hcodec, hkeys _ _ hs, hexp]
    simp [hnow]

theorem token_round_trip_witness :
    prog5.auth.Auth.GenerateToken sample.keys sample.signer sample.claims42
      = ("hdr.42.24rdh-k1", none) ∧
    ∃ claims, prog5.auth.Auth.ValidateToken sample.keys sample.signer 2000 "hdr.42.24rdh-k1"
      = .ok claims ∧ claims = sample.claims42 :=
  have hsigned : ∀ m sig, sample.signer.Sign m sample.keys.privateKey = .ok sig →
      sig = String.mk ((m.toList.filter (fun ch => ch != '.')).reverse
        ++ '-' :: sample.keys.privateKey.pem.toList) := by
    intro m sig h
    simp only [sample.signer] at h
    exact (Except.ok.inj h).symm
  have main := token_round_trip sample.keys sample.signer 2000 sample.claims42 1000 4600
    "hdr.42.24rdh-k1" rfl rfl (by decide) rfl (by decide)
    (by
      intro m sig h
      rw [hsigned m sig h]
      simp [sample.signer, sample.keys])
    rfl (by decide) (by decide)
    (by
      intro m sig h
      rw [hsigned m sig h]
      simp [String.toList, sample.keys])
  ⟨rfl, main.elim fun claims hc => ⟨claims, hc.1, hc.2.1⟩⟩

/-! ## Claims on the earlier iterations -/

/-- C14: the handlers of the earlier iterations go on after aborting. When
the body does not decode, `Signup` of the third and (with a trace id) of the
fifth iteration writes the 400 response, then the 502 response if validation
fails too, then the 200 response, and calls `CreateUser` on what the decoder
left. `Login` of the fifth iteration, without a trace id in the context,
writes the 500 response and goes on to decode the body, to call
`Authentication` and to write at least one more response. The sample
requests with the body `not json` and without trace id show each case. -/
theorem earlier_handlers_write_twice :
    (∀ (h : prog3.handlers.handler) (lib : prog3.handlers.Lib) (c : gin.Context) (err : GoError),
      (lib.decodeNewUserReq c.Request.Body).2 = some err →
      ∃ rest newRecord,
        (prog3.handlers.handler.Signup h lib c).c.Writer.written
          = c.Writer.written ++ (400, gin.Body.H [("msg", "Invalid JSON format")]) :: rest
            ++ [(200, gin.Body.user newRecord)] ∧
        (rest = [] ∨ rest = [(502, gin.Body.H [("msg", "Validation failed")])]) ∧
        Event.CreateUser (lib.decodeNewUserReq c.Request.Body).1
          ∈ (prog3.handlers.handler.Signup h lib c).events) ∧
    (∀ (h : prog5.handlers.handler) (lib : prog5.handlers.Lib) (c : gin.Context)
        (traceId : String) (err : GoError),
      context.Value c.Request.Context prog5.middleware.TrackerIdKey
        = some (context.Val.str traceId) →
      (lib.decodeNewUserReq c.Request.Body).2 = some err →
      ∃ rest newRecord,
        (prog5.handlers.handler.Signup h lib c).c.Writer.written
          = c.Writer.written
            ++ (400, gin.Body.H [("msg", "Invalid JSON format for new user")]) :: rest
            ++ [(200, gin.Body.user newRecord)] ∧
        (rest = [] ∨ rest = [(502, gin.Body.H [("msg", "Validation failed")])]) ∧
        Event.CreateUser (lib.decodeNewUserReq c.Request.Body).1
          ∈ (prog5.handlers.handler.Signup h lib c).events) ∧
    (∀ (h : prog5.handlers.handler) (lib : prog5.handlers.Lib) (c : gin.Context),
      (∀ t, context.Value c.Request.Context prog5.middleware.TrackerIdKey
        ≠ some (context.Val.str t)) →
      ∃ rest,
        (prog5.handlers.handler.Login h lib c).c.Writer.written
          = c.Writer.written ++ (500, gin.Body.H [("msg", "Track Id missing")]) :: rest ∧
        rest ≠ [] ∧
        (prog5.handlers.handler.Login h lib c).bodyReads = [c.Request.Body] ∧
        Event.Authentication (lib.decodeLoginReq c.Request.Body).1.Email
            (lib.decodeLoginReq c.Request.Body).1.Password
          ∈ (prog5.handlers.handler.Login h lib c).events) ∧
    (prog3.handlers.handler.Signup sample.h3 sample.lib3
        (sample.post [] "not json")).c.Writer.written.map Prod.fst = [400, 502, 200] ∧
    (prog5.handlers.handler.Signup sample.h5 sample.lib5
        (sample.post sample.traced5 "not json")).c.Writer.written.map Prod.fst
      = [400, 502, 200] ∧
    (prog5.handlers.handler.Login sample.h5 sample.lib5
        (sample.post [] "ann")).c.Writer.written.map Prod.fst = [500, 200] := by
  refine ⟨?_, ?_, ?_, by decide, by decide, by decide⟩
  · intro h lib c err hdec
    cases hv : lib.validateNewUserReq (lib.decodeNewUserReq c.Request.Body).1 with
    | none =>
      refine ⟨[], (h.db.CreateUser lib.GenerateFromPassword
        (lib.decodeNewUserReq c.Request.Body).1).1.1, ?_, Or.inl rfl, ?_⟩
      · simp only [prog3.handlers.handler.Signup, hdec, hv, gin.Context.JSON,
          gin.Context.AbortWithStatusJSON, gin.ResponseWriter.writeJSON]
        split <;> split <;>
          simp [http.StatusBadRequest, http.StatusOK, http.StatusBadGateway]
      · simp only [prog3.handlers.handler.Signup, hdec, hv]
        split <;> split <;> simp
    | some e =>
      refine ⟨[(502, gin.Body.H [("msg", "Validation failed")])],
        (h.db.CreateUser lib.GenerateFromPassword
          (lib.decodeNewUserReq c.Request.Body).1).1.1, ?_, Or.inr rfl, ?_⟩
      · simp only [prog3.handlers.handler.Signup, hdec, hv, gin.Context.JSON,
          gin.Context.AbortWithStatusJSON, gin.ResponseWriter.writeJSON]
        split <;> split <;>
          simp [http.StatusBadRequest, http.StatusOK, http.StatusBadGateway]
      · simp only [prog3.handlers.handler.Signup, hdec, hv]
        split <;> split <;> simp
  · intro h lib c traceId err htr hdec
    have ht := (assertString_eq_some _ _).mpr htr
    cases hv : lib.validateNewUserReq (lib.decodeNewUserReq c.Request.Body).1 with
    | none =>
      refine ⟨[], (h.db.CreateUser (lib.decodeNewUserReq c.Request.Body).1).1, ?_,
        Or.inl rfl, ?_⟩
      · simp only [prog5.handlers.handler.Signup, ht, hdec, hv, gin.Context.JSON,
          gin.Context.AbortWithStatusJSON, gin.ResponseWriter.writeJSON]
        split <;> split <;>
          simp [http.StatusBadRequest, http.StatusOK, http.StatusBadGateway]
      · simp only [prog5.handlers.handler.Signup, ht, hdec, hv]
        split <;> split <;> simp
    | some e =>
      refine ⟨[(502, gin.Body.H [("msg", "Validation failed")])],
        (h.db.CreateUser (lib.decodeNewUserReq c.Request.Body).1).1, ?_, Or.inr rfl, ?_⟩
      · simp only [prog5.handlers.handler.Signup, ht, hdec, hv, gin.Context.JSON,
          gin.Context.AbortWithStatusJSON, gin.ResponseWriter.writeJSON]
        split <;> split <;>
          simp [http.StatusBadRequest, http.StatusOK, http.StatusBadGateway]
      · simp only [prog5.handlers.handler.Signup, ht, hdec, hv]
        split <;> split <;> simp
  · intro h lib c hno
    have ht := assertString_none_of_no_string _ _ hno
    cases hd : (lib.decodeLoginReq c.Request.Body).2 <;>
    cases hv : lib.validateLoginReq (lib.decodeLoginReq c.Request.Body).1 <;>
    cases ha : (h.db.Authentication (lib.decodeLoginReq c.Request.Body).1).2 <;>
    cases hg : (h.a.GenerateToken lib.tokens
      (h.db.Authentication (lib.decodeLoginReq c.Request.Body).1).1).2 <;>
    · simp only [prog5.handlers.handler.Login, ht, hd, hv, ha, hg, gin.Context.JSON,
        gin.Context.AbortWithStatusJSON, gin.ResponseWriter.writeJSON, Outcome.bodyReads,
        http.StatusInternalServerError, http.StatusBadRequest, http.StatusOK,
        http.StatusBadGateway]
      apply Exists.intro
      refine ⟨?h1, ?h2, ?h3, ?h4⟩
      case h1 =>
        simp only [List.append_assoc, List.singleton_append, List.cons_append,
          List.nil_append]
        exact rfl
      case h2 => simp
      case h3 => simp
      case h4 => simp

/-! ## The store claims on the sample database -/

theorem Conn_Authenticate_claims_witness :
    (models.Conn.Authenticate sample.conn sample.compare
      (1000 * time.Second) (1000 * time.Second + 500000000) "ann@example.com" "secret").1
      = { Issuer := "service project", Subject := "42", Audience := ["students"],
          ExpiresAt := some 4600, NotBefore := none, IssuedAt := some 1000, ID := "" } ∧
    strconv.ParseUint (models.Conn.Authenticate sample.conn sample.compare
      (1000 * time.Second) (1000 * time.Second + 500000000) "ann@example.com" "secret").1.Subject
      = .ok 42 :=
  have main := (Conn_Authenticate_claims sample.conn sample.compare
    (1000 * time.Second) (1000 * time.Second + 500000000) "ann@example.com" "secret").1
    ⟨42, "Ann", "ann@example.com", "hash"⟩ rfl rfl
  ⟨by decide, main.2.2.2.1 (by decide)⟩

theorem CalculateTotalCost_spec_witness :
    models.CalculateTotalCost sample.arith
        (some [⟨"shirt", 2, "shirts", 42, ⟨3⟩⟩, ⟨"cap", 1, "caps", 42, ⟨5⟩⟩]) "shirts"
      = (⟨11⟩, none) ∧
    (models.Conn.ViewInventory sample.conn sample.arith "42").2 = (⟨11⟩, none) :=
  have main := CalculateTotalCost_spec sample.arith
    (some [⟨"shirt", 2, "shirts", 42, ⟨3⟩⟩, ⟨"cap", 1, "caps", 42, ⟨5⟩⟩]) "shirts"
  have hview := main.2.2.2.2.2.1 sample.conn "42"
    [⟨"shirt", 2, "shirts", 42, ⟨3⟩⟩, ⟨"cap", 1, "caps", 42, ⟨5⟩⟩] rfl
  ⟨(main.2.2.1 _ (by decide)).trans rfl, by rw [hview]; rfl⟩
